import Mathlib

/-!
# BotchBoard: the gateway RPC client of `src/server.js`

A shallow embedding of the gateway client (lines 49-170 of `src/server.js`):
the module-level variables become the fields of `State`, each function and
each event handler becomes a function on `State`, and the socket and timer
events that drive the handlers become the constructors of `Event`.

Conventions of the embedding.

* A message is the value returned by `JSON.parse`; it is a `JsVal`. The parser
  itself is the environment's: a frame whose text does not parse is the input
  `none` of the message handler.
* `requestId` is a JavaScript number that only ever holds `0, 1, 2, ...`; it is
  embedded as a natural number (the increment is exact below `2^53`).
* A promise created by `gatewayRequest` is a numbered handle. Every call of its
  `resolve` or `reject` function is appended to the log `State.settled`, which
  together with `State.sent` (the frames written to the socket) and
  `State.issued` (which id went to which promise) is bookkeeping that no
  handler reads back, apart from the first-settlement rule of promises.
-/

namespace BotchBoard

/-! ## JavaScript values -/

/-- A JavaScript value as produced by `JSON.parse`, plus `undefined` (the value
of a missing property). A number is kept by the two observations the client can
make of it: whether it is truthy (neither zero nor NaN) and its string
conversion. An object is its list of own properties. -/
inductive JsVal where
  | undefined
  | null
  | bool (b : Bool)
  | num (nonzero : Bool) (text : String)
  | str (s : String)
  | arr (items : List JsVal)
  | obj (fields : List (String × JsVal))

namespace JsVal

/-- ToBoolean: the test made by `if (v)` and by `v || d`. -/
def truthy : JsVal → Bool
  | undefined => false
  | null => false
  | bool b => b
  | num nonzero _ => nonzero
  | str s => decide (s ≠ "")
  | arr _ => true
  | obj _ => true

/-- Reading a property of a nullish value throws a TypeError. -/
def nullish : JsVal → Bool
  | undefined => true
  | null => true
  | _ => false

/-- The property read `v.key` for a value that is not nullish, for the keys the
client reads (`type`, `event`, `payload`, `nonce`, `id`, `ok`, `error`,
`message`): none of them is defined on a prototype, so only an own property of
an object is found. -/
def prop : JsVal → String → JsVal
  | obj fields, key => (fields.lookup key).getD undefined
  | _, _ => undefined

/-- The optional chain `v?.key`. -/
def optProp (v : JsVal) (key : String) : JsVal :=
  if v.nullish then undefined else v.prop key

/-- The strict comparison `v === 'literal'`. -/
def isStr : JsVal → String → Bool
  | str s, literal => decide (s = literal)
  | _, _ => false

/-- The expression `v || d`. -/
def orElse (v d : JsVal) : JsVal :=
  if v.truthy then v else d

mutual
/-- ToString, as applied by `new Error(v)` to its argument; `none` when the
conversion throws a TypeError (an object whose own `toString` property, which
in parsed JSON is never a function, hides `Object.prototype.toString`). -/
def toStr : JsVal → Option String
  | undefined => some "undefined"
  | null => some "null"
  | bool b => some (if b then "true" else "false")
  | num _ text => some text
  | str s => some s
  | arr items => joinItems items
  | obj fields =>
    if fields.any (fun f => f.1 == "toString") then none else some "[object Object]"
/-- The conversion `Array.prototype.join` with the separator "," that ToString
applies to an array: `undefined` and `null` elements become the empty string. -/
def joinItems : List JsVal → Option String
  | [] => some ""
  | [x] =>
    match x with
    | undefined => some ""
    | null => some ""
    | y => toStr y
  | x :: y :: rest =>
    match (match x with
      | undefined => some ""
      | null => some ""
      | z => toStr z), joinItems (y :: rest) with
    | some a, some b => some (a ++ "," ++ b)
    | _, _ => none
end

end JsVal

/-! ## Promises and the pending-request table -/

/-- Who called `gatewayRequest`: `sendConnect`, which chains
`.then(() => connected = true)` on the promise, or an API handler. -/
inductive Caller where
  | sendConnect
  | api
  deriving DecidableEq, Repr

/-- The promise returned by one call of `gatewayRequest`. -/
structure Promise where
  handle : Nat
  caller : Caller
  deriving DecidableEq, Repr

/-- The value or error a promise callback is invoked with; every rejection
in the client is `new Error(message)`. -/
inductive Outcome where
  | resolved (value : JsVal)
  | rejected (message : String)

/-- Which statement invoked the callback: the connection check of
`gatewayRequest`, the response branch of `handleGatewayMessage` (with the
`msg.id` of the response), the request timer, or `flushPending`. -/
inductive Cause where
  | notConnected
  | response (id : JsVal)
  | timeout
  | flush

/-- One invocation of a promise's `resolve` or `reject`. -/
structure Settlement where
  promise : Promise
  outcome : Outcome
  cause : Cause

/-- The `Map` held in `pendingRequests`: entries in insertion order, keyed by the
request id; the stored `{ resolve, reject }` pair is the promise it settles. -/
abbrev PendingMap := List (String × Promise)

namespace PendingMap

/-- The call `pendingRequests.has(id)`. -/
def has (m : PendingMap) (id : String) : Bool :=
  m.any (fun e => e.1 == id)

/-- The call `pendingRequests.get(key)`: the keys are strings, so only a string
key can be found. -/
def get (m : PendingMap) : JsVal → Option Promise
  | JsVal.str id => m.lookup id
  | _ => none

/-- The call `pendingRequests.delete(id)`. -/
def delete (m : PendingMap) (id : String) : PendingMap :=
  m.filter (fun e => e.1 != id)

/-- The call `pendingRequests.set(id, p)`: an existing key keeps its position
and takes the new value, a new key is appended. -/
def set (m : PendingMap) (id : String) (p : Promise) : PendingMap :=
  if has m id then m.map (fun e => if e.1 == id then (id, p) else e) else m ++ [(id, p)]

end PendingMap

/-! ## Client state -/

/-- The `readyState` of a WebSocket. -/
inductive ReadyState where
  | CONNECTING
  | OPEN
  | CLOSING
  | CLOSED
  deriving DecidableEq, Repr

/-- A frame written by `gatewayWs.send`: the object
`{ type: 'req', id, method, params }`. -/
structure Frame where
  id : String
  method : String
  params : JsVal

/-- The module-level variables of the gateway client (lines 50-54), the timers
it has armed and not yet run, and the bookkeeping described in the header. -/
structure State where
  /-- `gatewayWs`: `none` is `null`, otherwise the socket's `readyState`. -/
  gatewayWs : Option ReadyState
  connected : Bool
  pendingRequests : PendingMap
  requestId : Nat
  connectNonce : JsVal
  /-- Armed 30000 ms timers of `gatewayRequest`, with the `id` and `reject`
  their closures hold. -/
  requestTimers : List (String × Promise)
  /-- Armed 1000 ms timers of the `open` handler. -/
  fallbackTimers : Nat
  /-- Armed 3000 ms timers of the `close` handler. -/
  reconnectTimers : Nat
  /-- Number of promises created so far; the next handle. -/
  promises : Nat
  sent : List Frame
  settled : List Settlement
  issued : List (String × Promise)

/-- GATEWAY_TOKEN: the default of line 15 (an environment variable may replace
the string). -/
def GATEWAY_TOKEN : String := "af08ac7542be48400e040054f2db2810a39f95f648418493"

/-- The object `connectMsg` built by `sendConnect`. -/
def connectMsg : JsVal :=
  .obj [("minProtocol", .num true "3"), ("maxProtocol", .num true "3"),
    ("client", .obj [("id", .str "gateway-client"), ("version", .str "1.0.0"),
      ("platform", .str "node"), ("mode", .str "backend")]),
    ("role", .str "operator"), ("scopes", .arr [.str "operator.admin"]),
    ("caps", .arr []), ("auth", .obj [("token", .str GATEWAY_TOKEN)])]

/-- The id built by the template literal of line 156 from the incremented
counter. -/
def reqId (n : Nat) : String := "req-" ++ toString n

/-- One invocation of `resolve` or `reject` of promise `p`. The invocation is
logged; a promise takes only its first settlement, and when that fulfils the
promise of `sendConnect` its `.then` callback runs (line 116) before any other
handler. The `.catch` callback of line 117 only logs. -/
def settle (s : State) (p : Promise) (o : Outcome) (c : Cause) : State :=
  let first := !(s.settled.any (fun r => r.promise.handle == p.handle))
  let s1 := { s with settled := s.settled ++ [⟨p, o, c⟩] }
  match first, p.caller, o with
  | true, .sendConnect, .resolved _ => { s1 with connected := true }
  | _, _, _ => s1

/-- The function `gatewayRequest` (lines 150-170), called by `caller`. -/
def gatewayRequest (s : State) (caller : Caller) (method : String) (params : JsVal) : State :=
  let p : Promise := ⟨s.promises, caller⟩
  let s0 := { s with promises := s.promises + 1 }
  match s.gatewayWs with
  | some .OPEN =>
    let n := s.requestId + 1
    let id := reqId n
    { s0 with
      requestId := n
      pendingRequests := s.pendingRequests.set id p
      sent := s.sent ++ [⟨id, method, params⟩]
      requestTimers := s.requestTimers ++ [(id, p)]
      issued := s.issued ++ [(id, p)] }
  | _ => settle s0 p (.rejected "Gateway not connected") .notConnected

/-- The function `sendConnect` (lines 94-120). Its call of
`getOrCreateDeviceIdentity` reads and writes only the identity cache and the
identity file, and its result is not used. -/
def sendConnect (s : State) : State :=
  gatewayRequest s .sendConnect "connect" connectMsg

/-- The function `flushPending` (lines 143-148). -/
def flushPending (s : State) (err : String) : State :=
  let s1 := s.pendingRequests.foldl (fun acc e => settle acc e.2 (.rejected err) .flush) s
  { s1 with pendingRequests := [] }

/-- How a function body ends: normally, or by a thrown exception, with the state
it leaves behind. -/
structure Completion where
  state : State
  threw : Bool

/-- The function `handleGatewayMessage` (lines 122-141). -/
def handleGatewayMessage (s : State) (msg : JsVal) : Completion :=
  if msg.nullish then ⟨s, true⟩
  else if (msg.prop "type").isStr "event" && (msg.prop "event").isStr "connect.challenge" then
    let s1 := { s with connectNonce := ((msg.prop "payload").optProp "nonce").orElse .null }
    ⟨sendConnect s1, false⟩
  else if (msg.prop "type").isStr "res" then
    match s.pendingRequests.get (msg.prop "id"), msg.prop "id" with
    | some pending, .str id =>
      let s1 := { s with pendingRequests := s.pendingRequests.delete id }
      if (msg.prop "ok").truthy then
        ⟨settle s1 pending (.resolved (msg.prop "payload")) (.response (msg.prop "id")), false⟩
      else
        match ((((msg.prop "error").optProp "message").orElse (.str "Request failed"))).toStr with
        | some text => ⟨settle s1 pending (.rejected text) (.response (msg.prop "id")), false⟩
        | none => ⟨s1, true⟩
    | _, _ => ⟨s, false⟩
  else ⟨s, false⟩

/-- The `message` handler (lines 72-79): `parsed` is the outcome of
`JSON.parse(data.toString())`, `none` when it throws; whatever is thrown inside
the `try` block is caught and logged. -/
def onMessage (s : State) (parsed : Option JsVal) : Completion :=
  match parsed with
  | none => ⟨s, false⟩
  | some msg => ⟨(handleGatewayMessage s msg).state, false⟩

/-- The `open` handler (lines 64-70): it arms the fallback timer. -/
def onOpen (s : State) : State :=
  { s with fallbackTimers := s.fallbackTimers + 1 }

/-- The callback of the fallback timer (line 68). -/
def onFallback (s : State) : State :=
  if s.connected then s else sendConnect s

/-- The `close` handler (lines 81-87). -/
def onClose (s : State) : State :=
  let s1 := { s with connected := false, connectNonce := .null }
  let s2 := flushPending s1 "Gateway disconnected"
  { s2 with reconnectTimers := s2.reconnectTimers + 1 }

/-- The callback of a request timer (lines 163-168), holding `id` and the
`reject` of promise `p`. -/
def onRequestTimeout (s : State) (id : String) (p : Promise) : State :=
  if s.pendingRequests.has id then
    settle { s with pendingRequests := s.pendingRequests.delete id } p
      (.rejected "Request timeout") .timeout
  else s

/-- The function `connectGateway` (lines 56-92): a new socket, still connecting,
replaces the previous one. The previous socket is closed first; in every run
of the client it has already emitted its `close` event (see
`reconnect_after_close`), so it raises no further event. -/
def connectGateway (s : State) : State :=
  { s with gatewayWs := some .CONNECTING }

/-! ## Events -/

/-- What can happen to the client: a call from an API handler, the events of
the socket, and the expiry of an armed timer. -/
inductive Event where
  | request (method : String) (params : JsVal)
  | wsOpen
  | wsMessage (parsed : Option JsVal)
  | wsClose
  | wsError
  | requestTimeout (id : String)
  | fallbackTimeout
  | reconnectTimeout

/-- One event. The socket emits `open` only while connecting and `close` only
once; a timer runs only if it is armed, and is then spent. A `message` is
accepted in any state of the socket, since its handler never looks at the
socket. The `error` handler (lines 89-91) only logs. -/
def step (s : State) : Event → State
  | .request method params => gatewayRequest s .api method params
  | .wsOpen =>
    match s.gatewayWs with
    | some .CONNECTING => onOpen { s with gatewayWs := some .OPEN }
    | _ => s
  | .wsMessage parsed => (onMessage s parsed).state
  | .wsClose =>
    match s.gatewayWs with
    | none => s
    | some .CLOSED => s
    | some _ => onClose { s with gatewayWs := some .CLOSED }
  | .wsError => s
  | .requestTimeout id =>
    match s.requestTimers.lookup id with
    | none => s
    | some p => onRequestTimeout { s with requestTimers := s.requestTimers.erase (id, p) } id p
  | .fallbackTimeout =>
    if s.fallbackTimers = 0 then s
    else onFallback { s with fallbackTimers := s.fallbackTimers - 1 }
  | .reconnectTimeout =>
    if s.reconnectTimers = 0 then s
    else connectGateway { s with reconnectTimers := s.reconnectTimers - 1 }

/-- A finite sequence of events. -/
def run (s : State) (events : List Event) : State :=
  events.foldl step s

/-- The module-level initial values (lines 50-54). -/
def start : State :=
  { gatewayWs := none, connected := false, pendingRequests := [], requestId := 0,
    connectNonce := .null, requestTimers := [], fallbackTimers := 0, reconnectTimers := 0,
    promises := 0, sent := [], settled := [], issued := [] }

/-- The state once the module is loaded: line 513 calls `connectGateway`. -/
def initial : State := connectGateway start

/-! ## The invariant of the request table -/

/-- Reads a decimal numeral back, starting from the value `a` of the digits
already read. -/
def decimalValue (cs : List Char) (a : Nat) : Nat :=
  cs.foldl (fun a c => 10 * a + (c.toNat - 48)) a

/-- What every run of the client maintains about the ids it has issued, the
table of pending requests, the armed request timers and the log of promise
callbacks. -/
structure Inv (s : State) : Prop where
  /-- The ids issued so far are "req-1", ..., "req-n" in this order, `n` being
  the current `requestId`. -/
  issued_ids : s.issued.map Prod.fst = (List.range s.requestId).map (fun k => reqId (k + 1))
  /-- Every issued id went out in exactly one frame, in the same order. -/
  sent_ids : s.sent.map Frame.id = s.issued.map Prod.fst
  /-- Distinct requests belong to distinct promises. -/
  issued_handles : (s.issued.map (fun e => e.2.handle)).Nodup
  issued_lt : ∀ e ∈ s.issued, e.2.handle < s.promises
  /-- The table holds issued requests only, each at most once, in issue order. -/
  pending_sub : s.pendingRequests.Sublist s.issued
  timers_sub : s.requestTimers.Sublist s.issued
  /-- No promise has had a callback invoked twice. -/
  settled_nodup : (s.settled.map (fun r => r.promise.handle)).Nodup
  settled_lt : ∀ r ∈ s.settled, r.promise.handle < s.promises
  /-- A request still in the table has had no callback invoked. -/
  pending_unsettled : ∀ e ∈ s.pendingRequests, ∀ r ∈ s.settled,
    r.promise.handle ≠ e.2.handle
  /-- A callback invoked by the response branch was invoked for a response
  carrying the id issued to that promise. -/
  settled_response : ∀ r ∈ s.settled, ∀ v, r.cause = .response v →
    ∃ id, v = .str id ∧ (id, r.promise) ∈ s.issued

/-! ## Concrete scenarios -/

/-- The socket has opened and nothing else has happened: the SocketOpen state,
with `connected` still false. -/
def socketOpen : State := run initial [.wsOpen]

/-- The parameters of the `cron.list` call of the `cron.json` handler. -/
def cronParams : JsVal := .obj [("includeDisabled", .bool true)]

/-- A `cron.list` request is outstanding under the id "req-1". -/
def cronPending : State := run initial [.wsOpen, .request "cron.list" cronParams]

/-- The response `\x7btype:"res", id:"req-1", ok:true, payload:\x7bjobs:[]\x7d\x7d`. -/
def cronResponse : JsVal :=
  .obj [("type", .str "res"), ("id", .str "req-1"), ("ok", .bool true),
    ("payload", .obj [("jobs", .arr [])])]

/-- A successful response envelope for `id`. -/
def okResponse (id : String) (payload : JsVal) : JsVal :=
  .obj [("type", .str "res"), ("id", .str id), ("ok", .bool true), ("payload", payload)]

/-- Two requests are outstanding: `cron.list` under "req-1" and `sessions.list`
under "req-2". -/
def twoPending : State :=
  run initial [.wsOpen, .request "cron.list" cronParams,
    .request "sessions.list" (.obj [("limit", .num true "10")])]

/-- The event `\x7btype:"event", event:"connect.challenge", payload:\x7bnonce:"abc"\x7d\x7d`. -/
def challenge : JsVal :=
  .obj [("type", .str "event"), ("event", .str "connect.challenge"),
    ("payload", .obj [("nonce", .str "abc")])]

/-- The methods of the frames sent so far that are `connect` requests. -/
def connectsSent (s : State) : Nat :=
  (s.sent.filter (fun f => f.method == "connect")).length

/-! ## The identity store (lines 17-47) -/

/-- What `getOrCreateDeviceIdentity` can observe of `DEVICE_FILE`: the file does
not exist (`fs.existsSync` is false), it exists and `fs.readFileSync` throws, or
it exists and is read, `parsed` being the outcome of `JSON.parse` on its text
(`none` when the text does not parse). -/
inductive DeviceFile where
  | absent
  | unreadable
  | content (parsed : Option JsVal)

/-- The module-level cache `deviceIdentity` (line 19), the storage it is
persisted to, and counters of the calls of `crypto.randomUUID` and of
`fs.writeFileSync` made so far. -/
structure IdentityStore where
  deviceIdentity : JsVal
  file : DeviceFile
  /-- Whether `fs.writeFileSync(DEVICE_FILE, ...)` succeeds. -/
  writable : Bool
  uuidCalls : Nat
  writeCalls : Nat

/-- The call `fs.writeFileSync(DEVICE_FILE, JSON.stringify(identity, null, 2))`
inside its `try` block (lines 40-44): a failure is caught and logged. A
successful write replaces the text of the file by one that parses back to
`identity`; it does not change whether the file can be read. -/
def writeDeviceFile (st : IdentityStore) (identity : JsVal) : IdentityStore :=
  let st1 := { st with writeCalls := st.writeCalls + 1 }
  if st.writable then
    { st1 with
      file := match st.file with
        | .unreadable => .unreadable
        | _ => .content (some identity) }
  else st1

/-- The function `getOrCreateDeviceIdentity` (lines 21-47). Should it have to
generate an identity, `uuid` is what `crypto.randomUUID()` returns and `now` is
the text of the number `Date.now()` returns. The result is the returned value
and the store afterwards. -/
def getOrCreateDeviceIdentity (st : IdentityStore) (uuid now : String) :
    JsVal × IdentityStore :=
  if st.deviceIdentity.truthy then (st.deviceIdentity, st)
  else
    match st.file with
    | .content (some parsed) => (parsed, { st with deviceIdentity := parsed })
    | _ =>
      let identity : JsVal := .obj [("id", .str uuid), ("createdAt", .num true now)]
      let st1 := { st with deviceIdentity := identity, uuidCalls := st.uuidCalls + 1 }
      (identity, writeDeviceFile st1 identity)

/-- A process that has not yet asked for its identity, with the given storage. -/
def freshStore (file : DeviceFile) (writable : Bool) : IdentityStore :=
  { deviceIdentity := .null, file := file, writable := writable, uuidCalls := 0, writeCalls := 0 }

/-! ## Connect requests since the last close -/

/-- A frame with the given id and the method "connect" has been sent. -/
def ConnectFrameSent (s : State) (id : String) : Prop :=
  ∃ f ∈ s.sent, f.id = id ∧ f.method = "connect"

/-- What holds of a state reached from one whose table was empty and whose
request counter was `n0` (the state at start, or right after a `close`): every
pending request was issued after that point, and a pending request of
`sendConnect` went out as a "connect" frame. -/
structure Epoch (n0 : Nat) (s : State) : Prop where
  counter : n0 ≤ s.requestId
  pending_new : ∀ x ∈ s.pendingRequests, ∃ k, n0 ≤ k ∧ x.1 = reqId (k + 1)
  connect_sent : ∀ x ∈ s.pendingRequests, x.2.caller = .sendConnect → ConnectFrameSent s x.1

/-- The handshake as intended: the socket opens, the challenge with nonce "abc"
arrives, and the connect request "req-1" is answered successfully. -/
def handshake : List Event :=
  [.wsOpen, .wsMessage (some challenge), .wsMessage (some (okResponse "req-1" (.obj [])))]

/-! ## Basic facts about `settle`, `gatewayRequest` and `flushPending` -/

theorem settle_rejected (s : State) (p : Promise) (m : String) (c : Cause) :
    settle s p (.rejected m) c = { s with settled := s.settled ++ [⟨p, .rejected m, c⟩] } := by
  unfold settle
  cases (!(s.settled.any (fun r => r.promise.handle == p.handle))) <;>
    cases p.caller <;> rfl

@[simp]
theorem settle_settled (s : State) (p : Promise) (o : Outcome) (c : Cause) :
    (settle s p o c).settled = s.settled ++ [⟨p, o, c⟩] := by
  unfold settle
  cases (!(s.settled.any (fun r => r.promise.handle == p.handle))) <;>
    cases p.caller <;> cases o <;> rfl

/-- Apart from the log, `settle` can only change `connected`. -/
@[simp]
theorem settle_frame (s : State) (p : Promise) (o : Outcome) (c : Cause) :
    (settle s p o c).gatewayWs = s.gatewayWs ∧
    (settle s p o c).pendingRequests = s.pendingRequests ∧
    (settle s p o c).requestId = s.requestId ∧
    (settle s p o c).connectNonce = s.connectNonce ∧
    (settle s p o c).requestTimers = s.requestTimers ∧
    (settle s p o c).fallbackTimers = s.fallbackTimers ∧
    (settle s p o c).reconnectTimers = s.reconnectTimers ∧
    (settle s p o c).promises = s.promises ∧
    (settle s p o c).sent = s.sent ∧
    (settle s p o c).issued = s.issued := by
  unfold settle
  cases (!(s.settled.any (fun r => r.promise.handle == p.handle))) <;>
    cases p.caller <;> cases o <;> simp

theorem gatewayRequest_not_open (s : State) (caller : Caller) (method : String)
    (params : JsVal) (h : s.gatewayWs ≠ some .OPEN) :
    gatewayRequest s caller method params =
      { s with
        promises := s.promises + 1
        settled := s.settled ++
          [⟨⟨s.promises, caller⟩, .rejected "Gateway not connected", .notConnected⟩] } := by
  unfold gatewayRequest
  split
  · next h2 => exact absurd h2 h
  · simp [settle_rejected]

theorem gatewayRequest_open (s : State) (caller : Caller) (method : String)
    (params : JsVal) (h : s.gatewayWs = some .OPEN) :
    gatewayRequest s caller method params =
      { s with
        promises := s.promises + 1
        requestId := s.requestId + 1
        pendingRequests := s.pendingRequests.set (reqId (s.requestId + 1)) ⟨s.promises, caller⟩
        sent := s.sent ++ [⟨reqId (s.requestId + 1), method, params⟩]
        requestTimers := s.requestTimers ++ [(reqId (s.requestId + 1), ⟨s.promises, caller⟩)]
        issued := s.issued ++ [(reqId (s.requestId + 1), ⟨s.promises, caller⟩)] } := by
  unfold gatewayRequest
  simp [h]

theorem foldl_flush (err : String) (l : PendingMap) (s : State) :
    l.foldl (fun acc e => settle acc e.2 (.rejected err) .flush) s =
      { s with settled := s.settled ++ l.map (fun e => ⟨e.2, .rejected err, .flush⟩) } := by
  induction l generalizing s with
  | nil => simp
  | cons e rest ih =>
    rw [List.foldl_cons, ih, settle_rejected]
    simp

theorem flushPending_eq (s : State) (err : String) :
    flushPending s err =
      { s with
        pendingRequests := []
        settled := s.settled ++ s.pendingRequests.map (fun e => ⟨e.2, .rejected err, .flush⟩) } := by
  simp [flushPending, foldl_flush]

theorem PendingMap.has_delete (m : PendingMap) (id : String) :
    (PendingMap.delete m id).has id = false := by
  simp [PendingMap.has, PendingMap.delete]

theorem PendingMap.lookup_of_not_has (m : PendingMap) (id : String)
    (h : PendingMap.has m id = false) : m.lookup id = none := by
  induction m with
  | nil => rfl
  | cons e rest ih =>
    obtain ⟨k, p⟩ := e
    simp only [PendingMap.has, List.any_cons, Bool.or_eq_false_iff] at h
    have hk : (id == k) = false := by
      have := h.1
      simp only [beq_eq_false_iff_ne, ne_eq] at this ⊢
      exact fun e => this e.symm
    rw [List.lookup_cons, hk]
    exact ih h.2

theorem JsVal.not_nullish_of_prop (msg : JsVal) (key : String) (v : JsVal)
    (h : msg.prop key = v) (hv : v ≠ .undefined) : msg.nullish = false := by
  cases msg <;> simp_all [JsVal.prop, JsVal.nullish]

/-- The response branch, once the id of the envelope has been found in the
table. -/
theorem handleGatewayMessage_res (s : State) (msg : JsVal) (id : String)
    (p : Promise) (hty : msg.prop "type" = .str "res") (hid : msg.prop "id" = .str id)
    (hp : s.pendingRequests.lookup id = some p) :
    handleGatewayMessage s msg =
      if (msg.prop "ok").truthy then
        ⟨settle { s with pendingRequests := s.pendingRequests.delete id } p
          (.resolved (msg.prop "payload")) (.response (.str id)), false⟩
      else
        match ((((msg.prop "error").optProp "message").orElse (.str "Request failed"))).toStr with
        | some text => ⟨settle { s with pendingRequests := s.pendingRequests.delete id } p
            (.rejected text) (.response (.str id)), false⟩
        | none => ⟨{ s with pendingRequests := s.pendingRequests.delete id }, true⟩ := by
  have hn : msg.nullish = false := JsVal.not_nullish_of_prop msg "type" _ hty (by simp)
  have hget : s.pendingRequests.get (msg.prop "id") = some p := by
    rw [hid]; exact hp
  unfold handleGatewayMessage
  simp only [hn, hty, JsVal.isStr, hget]
  simp [hid]

/-! ## Responses (C2, C9) and malformed frames (C10) -/

/-- C2: when a response envelope (type "res") carries the id of a pending
request, `handleGatewayMessage` removes that entry and invokes the caller once:
with a truthy `ok` it resolves with exactly `msg.payload`; otherwise it rejects
with `error.message` when that is a non-empty string, and with the generic
message "Request failed" when `error` or its `message` is absent. -/
theorem handleGatewayMessage_matching_response (s : State) (msg : JsVal) (id : String)
    (p : Promise) (hty : msg.prop "type" = .str "res") (hid : msg.prop "id" = .str id)
    (hp : s.pendingRequests.lookup id = some p) :
    (handleGatewayMessage s msg).state.pendingRequests = s.pendingRequests.delete id ∧
    (handleGatewayMessage s msg).state.pendingRequests.has id = false ∧
    ((msg.prop "ok").truthy = true →
      (handleGatewayMessage s msg).threw = false ∧
      (handleGatewayMessage s msg).state.settled =
        s.settled ++ [⟨p, .resolved (msg.prop "payload"), .response (.str id)⟩]) ∧
    ((msg.prop "ok").truthy = false → ∀ m : String, m ≠ "" →
      (msg.prop "error").optProp "message" = .str m →
      (handleGatewayMessage s msg).threw = false ∧
      (handleGatewayMessage s msg).state.settled =
        s.settled ++ [⟨p, .rejected m, .response (.str id)⟩]) ∧
    ((msg.prop "ok").truthy = false →
      (msg.prop "error").optProp "message" = .undefined →
      (handleGatewayMessage s msg).threw = false ∧
      (handleGatewayMessage s msg).state.settled =
        s.settled ++ [⟨p, .rejected "Request failed", .response (.str id)⟩]) := by
  have hbody := handleGatewayMessage_res s msg id p hty hid hp
  have hpend : (handleGatewayMessage s msg).state.pendingRequests =
      s.pendingRequests.delete id := by
    rw [hbody]
    split
    · exact (settle_frame _ _ _ _).2.1
    · split
      · exact (settle_frame _ _ _ _).2.1
      · rfl
  refine ⟨hpend, ?_, ?_, ?_, ?_⟩
  · rw [hpend]; exact PendingMap.has_delete _ _
  · intro hok
    rw [hbody]
    simp [hok]
  · intro hok m hm hmsg
    have harg : (((msg.prop "error").optProp "message").orElse
        (.str "Request failed")).toStr = some m := by
      rw [hmsg]; simp [JsVal.orElse, JsVal.truthy, hm, JsVal.toStr]
    rw [hbody]
    simp only [hok, harg]
    simp
  · intro hok hmsg
    have harg : (((msg.prop "error").optProp "message").orElse
        (.str "Request failed")).toStr = some "Request failed" := by
      rw [hmsg]; simp [JsVal.orElse, JsVal.truthy, JsVal.toStr]
    rw [hbody]
    simp only [hok, harg]
    simp

/-- Witness of C2: the outstanding `cron.list` request "req-1" receives its
successful response and its caller is resolved with the payload holding the
empty `jobs` array. -/
theorem handleGatewayMessage_matching_response_witness :
    (handleGatewayMessage cronPending cronResponse).state.pendingRequests = [] ∧
    (handleGatewayMessage cronPending cronResponse).threw = false ∧
    (handleGatewayMessage cronPending cronResponse).state.settled =
      [⟨⟨0, .api⟩, .resolved (.obj [("jobs", .arr [])]), .response (.str "req-1")⟩] :=
  have h := handleGatewayMessage_matching_response cronPending cronResponse "req-1" ⟨0, .api⟩
    rfl rfl rfl
  ⟨h.1, (h.2.2.1 rfl).1, (h.2.2.1 rfl).2⟩

/-- C9: a response envelope (type "res") whose id is not a key of
`pendingRequests` has no effect: the handler ends normally in the state it
started in, so no field changes, no caller is invoked and nothing is thrown. -/
theorem handleGatewayMessage_unknown_response (s : State) (msg : JsVal)
    (hty : msg.prop "type" = .str "res")
    (hid : ∀ id, msg.prop "id" = .str id → s.pendingRequests.has id = false) :
    handleGatewayMessage s msg = ⟨s, false⟩ ∧ step s (.wsMessage (some msg)) = s := by
  have hn : msg.nullish = false := JsVal.not_nullish_of_prop msg "type" _ hty (by simp)
  have hget : s.pendingRequests.get (msg.prop "id") = none := by
    cases hv : msg.prop "id" <;> simp only [PendingMap.get]
    next id => exact PendingMap.lookup_of_not_has _ _ (hid id hv)
  have h : handleGatewayMessage s msg = ⟨s, false⟩ := by
    unfold handleGatewayMessage
    simp [hn, hty, JsVal.isStr, hget]
  exact ⟨h, by simp [step, onMessage, h]⟩

/-- Witness of C9: a response for "req-7" while only "req-1" is pending. -/
theorem handleGatewayMessage_unknown_response_witness :
    handleGatewayMessage cronPending (.obj [("type", .str "res"), ("id", .str "req-7"),
      ("ok", .bool true)]) = ⟨cronPending, false⟩ :=
  (handleGatewayMessage_unknown_response cronPending
    (.obj [("type", .str "res"), ("id", .str "req-7"), ("ok", .bool true)]) rfl
    (fun id h => by
      have : id = "req-7" := by
        simp only [JsVal.prop, List.lookup] at h
        simpa using h.symm
      subst this
      decide)).1

/-- C10: a frame that does not parse (`parsed = none`), or that parses to
anything but an object (null, a boolean, a number, a string, an array), leaves
the state as it was and the `message` handler ends normally; for `null` the
TypeError raised inside `handleGatewayMessage` is the one that is caught. -/
theorem onMessage_malformed (s : State) (parsed : Option JsVal)
    (h : ∀ fields, parsed ≠ some (.obj fields)) :
    onMessage s parsed = ⟨s, false⟩ ∧ step s (.wsMessage parsed) = s ∧
    handleGatewayMessage s .null = ⟨s, true⟩ := by
  have h1 : onMessage s parsed = ⟨s, false⟩ := by
    cases parsed with
    | none => rfl
    | some msg =>
      cases msg with
      | obj fields => exact absurd rfl (h fields)
      | _ => simp [onMessage, handleGatewayMessage, JsVal.nullish, JsVal.prop, JsVal.isStr]
  exact ⟨h1, by simp [step, h1], rfl⟩

/-- Witness of C10: an unparsable frame while "req-1" is pending. -/
theorem onMessage_malformed_witness :
    onMessage cronPending none = ⟨cronPending, false⟩ :=
  (onMessage_malformed cronPending none (fun _ h => by cases h)).1

/-! ## The connection check of `gatewayRequest` (C5, C6) -/

/-- C6: a `gatewayRequest` made while there is no socket, or while the socket's
`readyState` is not OPEN, rejects its promise at once with "Gateway not
connected" and changes nothing else: no frame is sent, `pendingRequests` and
`requestId` are as before, no timer is armed, and the socket, `connected` and
`connectNonce` are untouched. -/
theorem gatewayRequest_disconnected (s : State) (caller : Caller) (method : String)
    (params : JsVal) (h : s.gatewayWs ≠ some .OPEN) :
    (gatewayRequest s caller method params).settled =
      s.settled ++ [⟨⟨s.promises, caller⟩, .rejected "Gateway not connected", .notConnected⟩] ∧
    (gatewayRequest s caller method params).sent = s.sent ∧
    (gatewayRequest s caller method params).pendingRequests = s.pendingRequests ∧
    (gatewayRequest s caller method params).requestId = s.requestId ∧
    (gatewayRequest s caller method params).requestTimers = s.requestTimers ∧
    (gatewayRequest s caller method params).issued = s.issued ∧
    (gatewayRequest s caller method params).gatewayWs = s.gatewayWs ∧
    (gatewayRequest s caller method params).connected = s.connected ∧
    (gatewayRequest s caller method params).connectNonce = s.connectNonce ∧
    (gatewayRequest s caller method params).fallbackTimers = s.fallbackTimers ∧
    (gatewayRequest s caller method params).reconnectTimers = s.reconnectTimers := by
  rw [gatewayRequest_not_open s caller method params h]
  simp

/-- Witness of C6: a `cron.list` call before the socket has opened. -/
theorem gatewayRequest_disconnected_witness :
    (gatewayRequest initial .api "cron.list" cronParams).settled =
      [⟨⟨0, .api⟩, .rejected "Gateway not connected", .notConnected⟩] ∧
    (gatewayRequest initial .api "cron.list" cronParams).sent = [] ∧
    (gatewayRequest initial .api "cron.list" cronParams).pendingRequests = [] ∧
    (gatewayRequest initial .api "cron.list" cronParams).requestId = 0 :=
  have h := gatewayRequest_disconnected initial .api "cron.list" cronParams (by decide)
  ⟨h.1, h.2.1, h.2.2.1, h.2.2.2.1⟩

/-- Counterexample to C5 as stated: in the SocketOpen state (socket OPEN,
`connected` false) a `cron.list` call is not rejected; its frame is sent and
the request is registered under "req-1". -/
theorem gatewayRequest_socketOpen_is_sent :
    socketOpen.gatewayWs = some .OPEN ∧ socketOpen.connected = false ∧
    (gatewayRequest socketOpen .api "cron.list" cronParams).settled.length = 0 ∧
    (gatewayRequest socketOpen .api "cron.list" cronParams).sent.map (fun f => (f.id, f.method))
      = [("req-1", "cron.list")] ∧
    (gatewayRequest socketOpen .api "cron.list" cronParams).pendingRequests =
      [("req-1", ⟨0, .api⟩)] := by
  refine ⟨rfl, rfl, rfl, rfl, rfl⟩

/-- C5 as amended: the check of `gatewayRequest` is on the socket alone.
Without an OPEN socket the call fails at once with "Gateway not connected",
sends no frame and registers nothing. With an OPEN socket the request is
registered and sent whatever the value of `connected`; in particular so in
the SocketOpen state, which is how the `connect` request itself goes out. -/
theorem gatewayRequest_checks_socket_only (s : State) (caller : Caller) (method : String)
    (params : JsVal) :
    (s.gatewayWs ≠ some .OPEN →
      (gatewayRequest s caller method params).settled =
        s.settled ++
          [⟨⟨s.promises, caller⟩, .rejected "Gateway not connected", .notConnected⟩] ∧
      (gatewayRequest s caller method params).sent = s.sent ∧
      (gatewayRequest s caller method params).pendingRequests = s.pendingRequests) ∧
    (s.gatewayWs = some .OPEN →
      (gatewayRequest s caller method params).settled = s.settled ∧
      (gatewayRequest s caller method params).sent =
        s.sent ++ [⟨reqId (s.requestId + 1), method, params⟩] ∧
      (gatewayRequest s caller method params).pendingRequests =
        s.pendingRequests.set (reqId (s.requestId + 1)) ⟨s.promises, caller⟩ ∧
      (gatewayRequest s caller method params).connected = s.connected) := by
  constructor
  · intro h
    rw [gatewayRequest_not_open s caller method params h]
    simp
  · intro h
    rw [gatewayRequest_open s caller method params h]
    simp

/-- Witness of the amended C5, on both sides of the check: before the socket
opens the call is rejected; in the SocketOpen state it is sent. -/
theorem gatewayRequest_checks_socket_only_witness :
    (gatewayRequest initial .api "cron.list" cronParams).sent = [] ∧
    (gatewayRequest socketOpen .api "cron.list" cronParams).pendingRequests =
      PendingMap.set [] (reqId 1) ⟨0, .api⟩ :=
  ⟨((gatewayRequest_checks_socket_only initial .api "cron.list" cronParams).1 (by decide)).2.1,
   ((gatewayRequest_checks_socket_only socketOpen .api "cron.list" cronParams).2 rfl).2.2.1⟩

/-! ## Request ids are injective -/

theorem digitChar_value (k : Nat) (h : k < 10) : (Nat.digitChar k).toNat - 48 = k := by
  interval_cases k <;> rfl

theorem decimalValue_toDigitsCore (fuel : Nat) :
    ∀ (n : Nat) (ds : List Char), n < fuel →
      decimalValue (Nat.toDigitsCore 10 fuel n ds) 0 = decimalValue ds n := by
  induction fuel with
  | zero => intro n ds h; omega
  | succ fuel ih =>
    intro n ds h
    simp only [Nat.toDigitsCore]
    split
    · next h0 =>
      have hn : n % 10 = n := by omega
      simp only [decimalValue, List.foldl_cons, Nat.mul_zero, Nat.zero_add]
      rw [digitChar_value (n % 10) (Nat.mod_lt _ (by norm_num)), hn]
    · next h0 =>
      rw [ih (n / 10) _ (by omega)]
      simp only [decimalValue, List.foldl_cons,
        digitChar_value (n % 10) (Nat.mod_lt _ (by norm_num))]
      congr 1
      omega

theorem decimalValue_repr (n : Nat) : decimalValue (Nat.repr n).data 0 = n := by
  simp only [Nat.repr, Nat.toDigits, List.asString]
  exact decimalValue_toDigitsCore (n + 1) n [] (by omega)

theorem reqId_injective : Function.Injective reqId := by
  intro a b h
  have h1 : (toString a : String) = toString b := by
    have := congrArg String.data h
    simp only [reqId, String.data_append, List.append_cancel_left_eq] at this
    exact String.ext this
  have h2 : Nat.repr a = Nat.repr b := h1
  rw [← decimalValue_repr a, ← decimalValue_repr b, h2]

/-! ## The invariant holds in every run -/

theorem Inv.issued_id_le {s : State} (h : Inv s) {e : String × Promise} (he : e ∈ s.issued) :
    ∃ k, k < s.requestId ∧ e.1 = reqId (k + 1) := by
  have : e.1 ∈ s.issued.map Prod.fst := List.mem_map_of_mem _ he
  rw [h.issued_ids] at this
  obtain ⟨k, hk, hk2⟩ := List.mem_map.1 this
  exact ⟨k, List.mem_range.1 hk, hk2.symm⟩

theorem Inv.issued_ids_nodup {s : State} (h : Inv s) : (s.issued.map Prod.fst).Nodup := by
  rw [h.issued_ids]
  refine List.Nodup.map ?_ (List.nodup_range _)
  intro a b hab
  have := reqId_injective hab
  omega

/-- The next id is not yet a key of the table. -/
theorem Inv.fresh {s : State} (h : Inv s) :
    s.pendingRequests.has (reqId (s.requestId + 1)) = false := by
  rw [PendingMap.has, Bool.eq_false_iff]
  intro hany
  obtain ⟨e, he, hk⟩ := List.any_eq_true.1 hany
  obtain ⟨k, hlt, hid⟩ := h.issued_id_le (h.pending_sub.subset he)
  have heq : reqId (k + 1) = reqId (s.requestId + 1) := by
    rw [← hid]; simpa using hk
  have := reqId_injective heq
  omega

theorem Inv.pending_handle_unique {s : State} (h : Inv s) {e e2 : String × Promise}
    (he : e ∈ s.pendingRequests) (he2 : e2 ∈ s.issued) (hh : e.2.handle = e2.2.handle) :
    e = e2 :=
  List.inj_on_of_nodup_map h.issued_handles (h.pending_sub.subset he) he2 hh

theorem Inv.issued_id_unique {s : State} (h : Inv s) {e e2 : String × Promise}
    (he : e ∈ s.issued) (he2 : e2 ∈ s.issued) (hh : e.1 = e2.1) : e = e2 :=
  List.inj_on_of_nodup_map h.issued_ids_nodup he he2 hh

theorem inv_start : Inv start := by
  constructor <;> simp [start]

/-- Dropping entries from the table or the timer list keeps the invariant. -/
theorem Inv.shrink {s t : State} (h : Inv s)
    (hreq : t.requestId = s.requestId) (hprom : t.promises = s.promises)
    (hiss : t.issued = s.issued) (hsent : t.sent = s.sent)
    (hpend : t.pendingRequests.Sublist s.pendingRequests)
    (htim : t.requestTimers.Sublist s.requestTimers)
    (hset : t.settled = s.settled) : Inv t where
  issued_ids := by rw [hiss, hreq]; exact h.issued_ids
  sent_ids := by rw [hiss, hsent]; exact h.sent_ids
  issued_handles := by rw [hiss]; exact h.issued_handles
  issued_lt := by rw [hiss, hprom]; exact h.issued_lt
  pending_sub := by rw [hiss]; exact hpend.trans h.pending_sub
  timers_sub := by rw [hiss]; exact htim.trans h.timers_sub
  settled_nodup := by rw [hset]; exact h.settled_nodup
  settled_lt := by rw [hset, hprom]; exact h.settled_lt
  pending_unsettled := by
    rw [hset]
    exact fun e he => h.pending_unsettled e (hpend.subset he)
  settled_response := by rw [hset, hiss]; exact h.settled_response

/-- Removing a pending request and invoking a callback of its promise keeps the
invariant, provided a response-caused invocation carries the request's id. -/
theorem Inv.settle_pending {s t : State} (h : Inv s) {id : String} {p : Promise}
    (o : Outcome) (c : Cause) (hmem : (id, p) ∈ s.pendingRequests)
    (hc : ∀ v, c = .response v → v = .str id)
    (hreq : t.requestId = s.requestId) (hprom : t.promises = s.promises)
    (hiss : t.issued = s.issued) (hsent : t.sent = s.sent)
    (hpend : t.pendingRequests = s.pendingRequests.delete id)
    (htim : t.requestTimers.Sublist s.requestTimers)
    (hset : t.settled = s.settled ++ [⟨p, o, c⟩]) : Inv t where
  issued_ids := by rw [hiss, hreq]; exact h.issued_ids
  sent_ids := by rw [hiss, hsent]; exact h.sent_ids
  issued_handles := by rw [hiss]; exact h.issued_handles
  issued_lt := by rw [hiss, hprom]; exact h.issued_lt
  pending_sub := by
    rw [hiss, hpend]
    exact (List.filter_sublist _).trans h.pending_sub
  timers_sub := by rw [hiss]; exact htim.trans h.timers_sub
  settled_nodup := by
    rw [hset, List.map_append, List.nodup_append]
    refine ⟨h.settled_nodup, by simp, ?_⟩
    intro a ha hb
    obtain ⟨r, hr, hra⟩ := List.mem_map.1 ha
    simp only [List.map_cons, List.map_nil, List.mem_singleton] at hb
    exact h.pending_unsettled _ hmem r hr (by rw [hra, hb])
  settled_lt := by
    rw [hset, hprom]
    intro r hr
    rcases List.mem_append.1 hr with hr | hr
    · exact h.settled_lt r hr
    · simp only [List.mem_singleton] at hr
      subst hr
      exact h.issued_lt _ (h.pending_sub.subset hmem)
  pending_unsettled := by
    rw [hset, hpend]
    intro e he r hr
    have he2 : e ∈ s.pendingRequests := List.mem_of_mem_filter he
    have hne : e.1 ≠ id := by
      have := (List.mem_filter.1 he).2
      simpa using this
    rcases List.mem_append.1 hr with hr | hr
    · exact h.pending_unsettled e he2 r hr
    · simp only [List.mem_singleton] at hr
      subst hr
      intro hh
      have := h.pending_handle_unique hmem (h.pending_sub.subset he2) hh
      exact hne (by rw [← this])
  settled_response := by
    rw [hset, hiss]
    intro r hr v hv
    rcases List.mem_append.1 hr with hr | hr
    · exact h.settled_response r hr v hv
    · simp only [List.mem_singleton] at hr
      subst hr
      exact ⟨id, hc v hv, h.pending_sub.subset hmem⟩

/-- Rejecting every pending request and clearing the table keeps the invariant. -/
theorem Inv.flush {s t : State} (h : Inv s) (err : String)
    (hreq : t.requestId = s.requestId) (hprom : t.promises = s.promises)
    (hiss : t.issued = s.issued) (hsent : t.sent = s.sent)
    (hpend : t.pendingRequests = [])
    (htim : t.requestTimers.Sublist s.requestTimers)
    (hset : t.settled =
      s.settled ++ s.pendingRequests.map (fun e => ⟨e.2, .rejected err, .flush⟩)) : Inv t where
  issued_ids := by rw [hiss, hreq]; exact h.issued_ids
  sent_ids := by rw [hiss, hsent]; exact h.sent_ids
  issued_handles := by rw [hiss]; exact h.issued_handles
  issued_lt := by rw [hiss, hprom]; exact h.issued_lt
  pending_sub := by rw [hpend]; exact List.nil_sublist _
  timers_sub := by rw [hiss]; exact htim.trans h.timers_sub
  settled_nodup := by
    rw [hset, List.map_append, List.map_map, List.nodup_append]
    refine ⟨h.settled_nodup, ?_, ?_⟩
    · exact List.Nodup.sublist (h.pending_sub.map _) h.issued_handles
    · intro a ha hb
      obtain ⟨r, hr, hra⟩ := List.mem_map.1 ha
      obtain ⟨e, he, hea⟩ := List.mem_map.1 hb
      exact h.pending_unsettled e he r hr (by rw [hra, ← hea]; rfl)
  settled_lt := by
    rw [hset, hprom]
    intro r hr
    rcases List.mem_append.1 hr with hr | hr
    · exact h.settled_lt r hr
    · obtain ⟨e, he, her⟩ := List.mem_map.1 hr
      subst her
      exact h.issued_lt _ (h.pending_sub.subset he)
  pending_unsettled := by rw [hpend]; simp
  settled_response := by
    rw [hset, hiss]
    intro r hr v hv
    rcases List.mem_append.1 hr with hr | hr
    · exact h.settled_response r hr v hv
    · obtain ⟨e, he, her⟩ := List.mem_map.1 hr
      subst her
      cases hv

theorem Inv.gatewayRequest {s : State} (h : Inv s) (caller : Caller) (method : String)
    (params : JsVal) : Inv (gatewayRequest s caller method params) := by
  by_cases hopen : s.gatewayWs = some .OPEN
  · rw [gatewayRequest_open s caller method params hopen]
    have hset : s.pendingRequests.set (reqId (s.requestId + 1)) ⟨s.promises, caller⟩ =
        s.pendingRequests ++ [(reqId (s.requestId + 1), ⟨s.promises, caller⟩)] := by
      simp [PendingMap.set, h.fresh]
    constructor
    · simp only [List.map_append, h.issued_ids, List.range_succ]
      simp
    · simp only [List.map_append, h.sent_ids]
      simp
    · simp only [List.map_append, List.nodup_append]
      refine ⟨h.issued_handles, by simp, ?_⟩
      intro a ha hb
      obtain ⟨e, he, hea⟩ := List.mem_map.1 ha
      simp only [List.map_cons, List.map_nil, List.mem_singleton] at hb
      have := h.issued_lt e he
      omega
    · intro e he
      rcases List.mem_append.1 he with he | he
      · exact Nat.lt_succ_of_lt (h.issued_lt e he)
      · simp only [List.mem_singleton] at he
        subst he
        exact Nat.lt_succ_self _
    · show (s.pendingRequests.set _ _).Sublist _
      rw [hset]
      exact List.Sublist.append h.pending_sub (List.Sublist.refl _)
    · exact List.Sublist.append h.timers_sub (List.Sublist.refl _)
    · exact h.settled_nodup
    · exact fun r hr => Nat.lt_succ_of_lt (h.settled_lt r hr)
    · show ∀ e ∈ s.pendingRequests.set _ _, _
      rw [hset]
      intro e he r hr
      rcases List.mem_append.1 he with he | he
      · exact h.pending_unsettled e he r hr
      · simp only [List.mem_singleton] at he
        subst he
        exact Nat.ne_of_lt (h.settled_lt r hr)
    · intro r hr v hv
      obtain ⟨id, hid, hmem⟩ := h.settled_response r hr v hv
      exact ⟨id, hid, List.mem_append_left _ hmem⟩
  · rw [gatewayRequest_not_open s caller method params hopen]
    constructor
    · exact h.issued_ids
    · exact h.sent_ids
    · exact h.issued_handles
    · exact fun e he => Nat.lt_succ_of_lt (h.issued_lt e he)
    · exact h.pending_sub
    · exact h.timers_sub
    · show (List.map _ (s.settled ++ _)).Nodup
      rw [List.map_append, List.nodup_append]
      refine ⟨h.settled_nodup, by simp, ?_⟩
      intro a ha hb
      obtain ⟨r, hr, hra⟩ := List.mem_map.1 ha
      simp only [List.map_cons, List.map_nil, List.mem_singleton] at hb
      have := h.settled_lt r hr
      omega
    · intro r hr
      rcases List.mem_append.1 hr with hr | hr
      · exact Nat.lt_succ_of_lt (h.settled_lt r hr)
      · simp only [List.mem_singleton] at hr
        subst hr
        exact Nat.lt_succ_self _
    · intro e he r hr
      rcases List.mem_append.1 hr with hr | hr
      · exact h.pending_unsettled e he r hr
      · simp only [List.mem_singleton] at hr
        subst hr
        exact (Nat.ne_of_lt (h.issued_lt e (h.pending_sub.subset he))).symm
    · intro r hr v hv
      rcases List.mem_append.1 hr with hr | hr
      · exact h.settled_response r hr v hv
      · simp only [List.mem_singleton] at hr
        subst hr
        cases hv

theorem PendingMap.mem_of_lookup (m : PendingMap) (id : String) (p : Promise)
    (h : m.lookup id = some p) : (id, p) ∈ m := by
  induction m with
  | nil => simp at h
  | cons e rest ih =>
    obtain ⟨k, q⟩ := e
    rw [List.lookup_cons] at h
    by_cases hk : id = k
    · subst hk
      simp only [beq_self_eq_true, Option.some.injEq] at h
      subst h
      exact List.mem_cons_self _ _
    · have : (id == k) = false := by simpa using hk
      rw [this] at h
      exact List.mem_cons_of_mem _ (ih h)

theorem PendingMap.exists_of_has (m : PendingMap) (id : String)
    (h : PendingMap.has m id = true) : ∃ p, (id, p) ∈ m := by
  obtain ⟨e, he, hk⟩ := List.any_eq_true.1 h
  have : e.1 = id := by simpa using hk
  exact ⟨e.2, by rw [← this]; exact he⟩

theorem Inv.handleGatewayMessage {s : State} (h : Inv s) (msg : JsVal) :
    Inv (handleGatewayMessage s msg).state := by
  unfold BotchBoard.handleGatewayMessage
  split
  · exact h
  · split
    · show Inv (BotchBoard.gatewayRequest _ _ _ _)
      apply Inv.gatewayRequest
      exact h.shrink rfl rfl rfl rfl (List.Sublist.refl _) (List.Sublist.refl _) rfl
    · split
      · split
        · next pending id hget hid =>
          have hmem : (id, pending) ∈ s.pendingRequests := by
            rw [hid] at hget
            exact PendingMap.mem_of_lookup _ _ _ hget
          have hc : ∀ v, Cause.response (msg.prop "id") = .response v → v = .str id := by
            intro v hv
            injection hv with hv
            rw [← hv, hid]
          split
          · exact h.settle_pending (.resolved (msg.prop "payload")) (.response (msg.prop "id"))
              hmem hc (by simp) (by simp) (by simp) (by simp) (by simp) (by simp) (by simp)
          · split
            · next text _ =>
              exact h.settle_pending (.rejected text) (.response (msg.prop "id"))
                hmem hc (by simp) (by simp) (by simp) (by simp) (by simp) (by simp) (by simp)
            · exact h.shrink rfl rfl rfl rfl (List.filter_sublist _) (List.Sublist.refl _) rfl
        · exact h
      · exact h

theorem Inv.step {s : State} (h : Inv s) (e : Event) : Inv (step s e) := by
  cases e with
  | request method params => exact h.gatewayRequest _ _ _
  | wsOpen =>
    simp only [BotchBoard.step]
    split
    · exact h.shrink rfl rfl rfl rfl (List.Sublist.refl _) (List.Sublist.refl _) rfl
    · exact h
  | wsMessage parsed =>
    cases parsed with
    | none => exact h
    | some msg => exact h.handleGatewayMessage msg
  | wsClose =>
    simp only [BotchBoard.step]
    split
    · exact h
    · exact h
    · simp only [onClose, flushPending_eq]
      exact h.flush "Gateway disconnected" rfl rfl rfl rfl rfl (List.Sublist.refl _) rfl
  | wsError => exact h
  | requestTimeout id =>
    simp only [BotchBoard.step]
    split
    · exact h
    · next p hp =>
      have htimer : (id, p) ∈ s.issued :=
        h.timers_sub.subset (PendingMap.mem_of_lookup _ _ _ hp)
      simp only [onRequestTimeout]
      split
      · next hhas =>
        obtain ⟨q, hq⟩ := PendingMap.exists_of_has _ _ hhas
        have hqp : (id, q) = (id, p) := h.issued_id_unique (h.pending_sub.subset hq) htimer rfl
        rw [hqp] at hq
        exact h.settle_pending (.rejected "Request timeout") .timeout hq
          (fun v hv => by cases hv) (by simp) (by simp) (by simp)
          (by simp) (by simp) (by simpa using List.erase_sublist _ _) (by simp)
      · exact h.shrink rfl rfl rfl rfl (List.Sublist.refl _) (List.erase_sublist _ _) rfl
  | fallbackTimeout =>
    simp only [BotchBoard.step]
    split
    · exact h
    · simp only [onFallback]
      split
      · exact h.shrink rfl rfl rfl rfl (List.Sublist.refl _) (List.Sublist.refl _) rfl
      · show Inv (BotchBoard.gatewayRequest _ _ _ _)
        apply Inv.gatewayRequest
        exact h.shrink rfl rfl rfl rfl (List.Sublist.refl _) (List.Sublist.refl _) rfl
  | reconnectTimeout =>
    simp only [BotchBoard.step]
    split
    · exact h
    · exact h.shrink rfl rfl rfl rfl (List.Sublist.refl _) (List.Sublist.refl _) rfl

theorem Inv.run {s : State} (h : Inv s) (events : List Event) : Inv (run s events) := by
  induction events generalizing s with
  | nil => exact h
  | cons e rest ih => exact ih (h.step e)

theorem inv_initial : Inv initial :=
  inv_start.shrink rfl rfl rfl rfl (List.Sublist.refl _) (List.Sublist.refl _) rfl

/-! ## The request counter never decreases -/

theorem gatewayRequest_requestId_le (s : State) (caller : Caller) (method : String)
    (params : JsVal) : s.requestId ≤ (gatewayRequest s caller method params).requestId := by
  by_cases hopen : s.gatewayWs = some .OPEN
  · rw [gatewayRequest_open s caller method params hopen]
    exact Nat.le_succ _
  · rw [gatewayRequest_not_open s caller method params hopen]

theorem handleGatewayMessage_requestId_le (s : State) (msg : JsVal) :
    s.requestId ≤ (handleGatewayMessage s msg).state.requestId := by
  unfold handleGatewayMessage
  split
  · exact Nat.le_refl _
  · split
    · exact gatewayRequest_requestId_le
        { s with connectNonce := ((msg.prop "payload").optProp "nonce").orElse .null }
        .sendConnect "connect" connectMsg
    · split
      · split
        · split
          · simp
          · split <;> simp
        · exact Nat.le_refl _
      · exact Nat.le_refl _

theorem step_requestId_le (s : State) (e : Event) : s.requestId ≤ (step s e).requestId := by
  cases e with
  | request method params => exact gatewayRequest_requestId_le _ _ _ _
  | wsOpen => simp only [step]; split <;> simp [onOpen]
  | wsMessage parsed =>
    cases parsed with
    | none => exact Nat.le_refl _
    | some msg => exact handleGatewayMessage_requestId_le s msg
  | wsClose => simp only [step]; split <;> simp [onClose, flushPending_eq]
  | wsError => exact Nat.le_refl _
  | requestTimeout id =>
    simp only [step]
    split
    · exact Nat.le_refl _
    · simp only [onRequestTimeout]
      split <;> simp
  | fallbackTimeout =>
    simp only [step]
    split
    · exact Nat.le_refl _
    · simp only [onFallback]
      split
      · simp
      · exact gatewayRequest_requestId_le { s with fallbackTimers := s.fallbackTimers - 1 }
          .sendConnect "connect" connectMsg
  | reconnectTimeout => simp only [step]; split <;> simp [connectGateway]

theorem run_requestId_le (s : State) (events : List Event) :
    s.requestId ≤ (run s events).requestId := by
  induction events generalizing s with
  | nil => exact Nat.le_refl _
  | cons e rest ih => exact Nat.le_trans (step_requestId_le s e) (ih (step s e))

theorem PendingMap.lookup_delete_ne (m : PendingMap) (i j : String) (h : i ≠ j) :
    (PendingMap.delete m j).lookup i = m.lookup i := by
  induction m with
  | nil => rfl
  | cons e rest ih =>
    obtain ⟨k, q⟩ := e
    by_cases hk : k = j
    · subst hk
      have hik : (i == k) = false := by simpa using h
      simp only [PendingMap.delete, List.filter_cons, bne_self_eq_false, Bool.false_eq_true,
        if_false, List.lookup_cons, hik]
      exact ih
    · have hkj : (k != j) = true := by simpa using hk
      simp only [PendingMap.delete, List.filter_cons, hkj, if_true, List.lookup_cons]
      cases (i == k)
      · exact ih
      · rfl

theorem PendingMap.lookup_of_has (m : PendingMap) (id : String)
    (h : PendingMap.has m id = true) : ∃ p, m.lookup id = some p := by
  cases hl : m.lookup id with
  | some p => exact ⟨p, rfl⟩
  | none =>
    obtain ⟨q, hq⟩ := PendingMap.exists_of_has m id h
    have : m.lookup id ≠ none := by
      clear hl h
      induction m with
      | nil => simp at hq
      | cons e rest ih =>
        obtain ⟨k, r⟩ := e
        rw [List.lookup_cons]
        by_cases hk : id = k
        · simp [hk]
        · have hik : (id == k) = false := by simpa using hk
          rw [hik]
          rcases List.mem_cons.1 hq with hq | hq
          · exact absurd (congrArg Prod.fst hq) hk
          · exact ih hq
    exact absurd hl this

/-- Two successful responses delivered in the order `j`, `i` to a table that
holds both ids resolve each promise with the payload of its own response. -/
theorem responses_any_order (s : State) (i j : String) (pi pj : Promise)
    (payloadI payloadJ : JsVal) (hij : i ≠ j)
    (hi : s.pendingRequests.lookup i = some pi) (hj : s.pendingRequests.lookup j = some pj) :
    (run s [.wsMessage (some (okResponse j payloadJ)),
        .wsMessage (some (okResponse i payloadI))]).settled =
      s.settled ++ [⟨pj, .resolved payloadJ, .response (.str j)⟩,
        ⟨pi, .resolved payloadI, .response (.str i)⟩] := by
  have h1 := handleGatewayMessage_res s (okResponse j payloadJ) j pj rfl rfl hj
  have hok : ∀ k v, ((okResponse k v).prop "ok").truthy = true := fun _ _ => rfl
  have hpay : ∀ k v, (okResponse k v).prop "payload" = v := fun _ _ => rfl
  rw [if_pos (hok _ _), hpay] at h1
  have hi2 : (settle { s with pendingRequests := s.pendingRequests.delete j } pj
      (.resolved payloadJ) (.response (.str j))).pendingRequests.lookup i = some pi := by
    rw [(settle_frame _ _ _ _).2.1]
    exact (PendingMap.lookup_delete_ne _ _ _ hij).trans hi
  have h2 := handleGatewayMessage_res _ (okResponse i payloadI) i pi rfl rfl hi2
  rw [if_pos (hok _ _), hpay] at h2
  simp only [run, List.foldl_cons, List.foldl_nil, step, onMessage, h1, h2]
  simp

/-! ## Request ids (C8) -/

/-- C8: in every run from the initial state the frames sent carry the ids
"req-1", "req-2", ..., "req-n" in this order, `n` being the current `requestId`
(each passing `gatewayRequest` call takes the next number); so the ids are
pairwise distinct over the whole run, whatever was resolved, timed out, flushed
or reconnected in between, and the id the next call will take is not a key of
`pendingRequests`, so registering it appends an entry and overwrites none. -/
theorem request_ids_sequential (events : List Event) :
    (run initial events).sent.map Frame.id =
      (List.range (run initial events).requestId).map (fun k => reqId (k + 1)) ∧
    ((run initial events).sent.map Frame.id).Nodup ∧
    (run initial events).issued.map Prod.fst = (run initial events).sent.map Frame.id ∧
    (run initial events).pendingRequests.has
      (reqId ((run initial events).requestId + 1)) = false ∧
    (∀ p, (run initial events).pendingRequests.set
        (reqId ((run initial events).requestId + 1)) p =
      (run initial events).pendingRequests ++
        [(reqId ((run initial events).requestId + 1), p)]) ∧
    (∀ caller method params,
      (gatewayRequest socketOpen caller method params).sent.map Frame.id = ["req-1"]) := by
  have h : Inv (run initial events) := inv_initial.run events
  refine ⟨?_, ?_, ?_, h.fresh, ?_, ?_⟩
  · rw [h.sent_ids, h.issued_ids]
  · rw [h.sent_ids]; exact h.issued_ids_nodup
  · exact h.sent_ids.symm
  · intro p
    simp [PendingMap.set, h.fresh]
  · intro caller method params
    rfl

/-! ## Request timeouts (C4) -/

/-- C4: when the timer of request `id` runs while `id` is still a key of
`pendingRequests`, the entry is removed and the promise held by the timer is
rejected with "Request timeout"; when `id` is no longer a key, the callback
leaves the state exactly as it was. In a run from the initial state the promise
held by the timer is the one registered under `id`, and no later
`gatewayRequest` is given the id `id` again. -/
theorem request_timeout_fires (s : State) (id : String) (p : Promise) :
    (s.pendingRequests.has id = true →
      (onRequestTimeout s id p).settled =
        s.settled ++ [⟨p, .rejected "Request timeout", .timeout⟩] ∧
      (onRequestTimeout s id p).pendingRequests = s.pendingRequests.delete id ∧
      (onRequestTimeout s id p).pendingRequests.has id = false) ∧
    (s.pendingRequests.has id = false → onRequestTimeout s id p = s) ∧
    (∀ events, s = run initial events → (id, p) ∈ s.issued →
      (s.pendingRequests.has id = true → s.pendingRequests.lookup id = some p) ∧
      ∀ (more : List Event) (caller : Caller) (method : String) (params : JsVal),
        (run s more).gatewayWs = some .OPEN →
        (gatewayRequest (run s more) caller method params).sent =
          (run s more).sent ++ [⟨reqId ((run s more).requestId + 1), method, params⟩] ∧
        reqId ((run s more).requestId + 1) ≠ id) := by
  refine ⟨?_, ?_, ?_⟩
  · intro hhas
    simp [onRequestTimeout, hhas, PendingMap.has_delete]
  · intro hhas
    simp [onRequestTimeout, hhas]
  · intro events hs hmem
    have h : Inv s := hs ▸ inv_initial.run events
    constructor
    · intro hhas
      obtain ⟨q, hq⟩ := PendingMap.lookup_of_has _ _ hhas
      have hq2 := h.pending_sub.subset (PendingMap.mem_of_lookup _ _ _ hq)
      have := h.issued_id_unique hq2 hmem rfl
      rw [hq, (Prod.mk.inj this).2]
    · intro more caller method params hopen
      refine ⟨by rw [gatewayRequest_open _ caller method params hopen], ?_⟩
      obtain ⟨k, hk, hid⟩ := h.issued_id_le hmem
      intro heq
      have hle := run_requestId_le s more
      have := reqId_injective (heq.trans hid)
      omega

/-- Witness of C4: the timer of the outstanding request "req-1" runs; the
request is rejected with the timeout error and leaves the table. -/
theorem request_timeout_fires_witness :
    (onRequestTimeout cronPending "req-1" ⟨0, .api⟩).settled =
      [⟨⟨0, .api⟩, .rejected "Request timeout", .timeout⟩] ∧
    (onRequestTimeout cronPending "req-1" ⟨0, .api⟩).pendingRequests.has "req-1" = false ∧
    onRequestTimeout cronPending "req-7" ⟨0, .api⟩ = cronPending :=
  have h := request_timeout_fires cronPending "req-1" ⟨0, .api⟩
  ⟨(h.1 rfl).1, (h.1 rfl).2.2,
    (request_timeout_fires cronPending "req-7" ⟨0, .api⟩).2.1 rfl⟩

/-! ## Transport close (C3) -/

/-- C3: the `close` handler rejects every request that is in `pendingRequests`
with "Gateway disconnected", one rejection per entry and nothing else, and
leaves `pendingRequests` empty, `connected` false and `connectNonce` null. In a
run from the initial state each of those requests had no callback invoked
before the close and has exactly one after it. -/
theorem close_rejects_all_pending (s : State) :
    (onClose s).settled =
      s.settled ++
        s.pendingRequests.map (fun e => ⟨e.2, .rejected "Gateway disconnected", .flush⟩) ∧
    (onClose s).pendingRequests = [] ∧
    (onClose s).connected = false ∧
    (onClose s).connectNonce = .null ∧
    (∀ r, s.gatewayWs = some r → r ≠ .CLOSED →
      step s .wsClose = onClose { s with gatewayWs := some .CLOSED }) ∧
    (∀ events, s = run initial events → ∀ e ∈ s.pendingRequests,
      (s.settled.map (fun r => r.promise.handle)).count e.2.handle = 0 ∧
      ((onClose s).settled.map (fun r => r.promise.handle)).count e.2.handle = 1) := by
  have hset : (onClose s).settled = s.settled ++
      s.pendingRequests.map (fun e => ⟨e.2, .rejected "Gateway disconnected", .flush⟩) := by
    simp [onClose, flushPending_eq]
  refine ⟨hset, by simp [onClose, flushPending_eq], by simp [onClose, flushPending_eq],
    by simp [onClose, flushPending_eq], ?_, ?_⟩
  · intro r hr hne
    cases r <;> simp_all [step]
  · intro events hs e he
    have h : Inv s := hs ▸ inv_initial.run events
    have h0 : (s.settled.map (fun r => r.promise.handle)).count e.2.handle = 0 := by
      rw [List.count_eq_zero]
      intro hmem
      obtain ⟨r, hr, hre⟩ := List.mem_map.1 hmem
      exact h.pending_unsettled e he r hr hre
    refine ⟨h0, ?_⟩
    rw [hset, List.map_append, List.count_append, h0, List.map_map, Nat.zero_add]
    have hnd : (s.pendingRequests.map (fun e => e.2.handle)).Nodup :=
      List.Nodup.sublist (h.pending_sub.map _) h.issued_handles
    exact List.count_eq_one_of_mem hnd (List.mem_map_of_mem (fun e => e.2.handle) he)

/-- Witness of C3: the socket closes while "req-1" and "req-2" are pending. -/
theorem close_rejects_all_pending_witness :
    (onClose twoPending).settled =
      [⟨⟨0, .api⟩, .rejected "Gateway disconnected", .flush⟩,
        ⟨⟨1, .api⟩, .rejected "Gateway disconnected", .flush⟩] ∧
    (onClose twoPending).pendingRequests = [] ∧
    ((onClose twoPending).settled.map (fun r => r.promise.handle)).count 1 = 1 :=
  have h := close_rejects_all_pending twoPending
  ⟨h.1, h.2.1, ((h.2.2.2.2.2 [.wsOpen, .request "cron.list" cronParams,
    .request "sessions.list" (.obj [("limit", .num true "10")])] rfl
    ("req-2", ⟨1, .api⟩) (by decide)).2)⟩

/-! ## Every caller is settled at most once, by its own response (C1) -/

/-- C1: in every run from the initial state, no promise has a callback invoked
more than once; a callback invoked by the response branch for the promise of an
issued request was invoked for a response carrying exactly the id issued to
that request; and when two requests `i` and `j` are outstanding, delivering the
successful response for `j` before the one for `i` resolves the promise of `j`
with the payload of `j` and the promise of `i` with the payload of `i`. -/
theorem callers_settled_once_by_own_id (events : List Event) :
    (∀ handle : Nat,
      ((run initial events).settled.map (fun r => r.promise.handle)).count handle ≤ 1) ∧
    (∀ e ∈ (run initial events).issued, ∀ r ∈ (run initial events).settled,
      r.promise.handle = e.2.handle → ∀ v, r.cause = .response v → v = .str e.1) ∧
    (∀ (i j : String) (pi pj : Promise) (payloadI payloadJ : JsVal), i ≠ j →
      (run initial events).pendingRequests.lookup i = some pi →
      (run initial events).pendingRequests.lookup j = some pj →
      (run (run initial events) [.wsMessage (some (okResponse j payloadJ)),
          .wsMessage (some (okResponse i payloadI))]).settled =
        (run initial events).settled ++ [⟨pj, .resolved payloadJ, .response (.str j)⟩,
          ⟨pi, .resolved payloadI, .response (.str i)⟩]) := by
  have h : Inv (run initial events) := inv_initial.run events
  refine ⟨?_, ?_, ?_⟩
  · exact fun handle => List.nodup_iff_count_le_one.1 h.settled_nodup handle
  · intro e he r hr hh v hv
    obtain ⟨id, hid, hmem⟩ := h.settled_response r hr v hv
    have := List.inj_on_of_nodup_map h.issued_handles hmem he hh
    rw [hid, ← this]
  · intro i j pi pj payloadI payloadJ hij hi hj
    exact responses_any_order _ i j pi pj payloadI payloadJ hij hi hj

/-- Witness of C1: with "req-1" and "req-2" outstanding, the response for
"req-2" arrives first; each promise is resolved with its own payload. -/
theorem callers_settled_once_by_own_id_witness :
    (run twoPending [.wsMessage (some (okResponse "req-2" (.str "sessions"))),
        .wsMessage (some (okResponse "req-1" (.str "jobs")))]).settled =
      [⟨⟨1, .api⟩, .resolved (.str "sessions"), .response (.str "req-2")⟩,
        ⟨⟨0, .api⟩, .resolved (.str "jobs"), .response (.str "req-1")⟩] :=
  (callers_settled_once_by_own_id [.wsOpen, .request "cron.list" cronParams,
    .request "sessions.list" (.obj [("limit", .num true "10")])]).2.2
    "req-1" "req-2" ⟨0, .api⟩ ⟨1, .api⟩ (.str "jobs") (.str "sessions") (by decide) rfl rfl

/-! ## The handshake (C7) -/

/-- C7 at its failing inputs: after the socket opens, a challenge with nonce
"abc" arrives and the fallback timer runs before any connect response;
`connected` is still false, so two `connect` requests have been sent ("req-1"
and "req-2"). The same happens when the fallback timer runs first and the
challenge arrives afterwards. -/
theorem connect_sent_twice :
    (run initial [.wsOpen, .wsMessage (some challenge), .fallbackTimeout]).sent.map
      (fun f => (f.id, f.method)) = [("req-1", "connect"), ("req-2", "connect")] ∧
    connectsSent (run initial [.wsOpen, .wsMessage (some challenge), .fallbackTimeout]) = 2 ∧
    connectsSent (run initial [.wsOpen, .fallbackTimeout, .wsMessage (some challenge)]) = 2 := by
  refine ⟨rfl, rfl, rfl⟩

/-! ## One socket at a time -/

theorem gatewayRequest_socket (s : State) (caller : Caller) (method : String)
    (params : JsVal) :
    (gatewayRequest s caller method params).gatewayWs = s.gatewayWs ∧
    (gatewayRequest s caller method params).reconnectTimers = s.reconnectTimers := by
  by_cases hopen : s.gatewayWs = some .OPEN
  · rw [gatewayRequest_open s caller method params hopen]
    exact ⟨rfl, rfl⟩
  · rw [gatewayRequest_not_open s caller method params hopen]
    exact ⟨rfl, rfl⟩

theorem handleGatewayMessage_socket (s : State) (msg : JsVal) :
    (handleGatewayMessage s msg).state.gatewayWs = s.gatewayWs ∧
    (handleGatewayMessage s msg).state.reconnectTimers = s.reconnectTimers := by
  unfold handleGatewayMessage
  split
  · exact ⟨rfl, rfl⟩
  · split
    · exact gatewayRequest_socket
        { s with connectNonce := ((msg.prop "payload").optProp "nonce").orElse .null }
        .sendConnect "connect" connectMsg
    · split
      · split
        · split
          · simp
          · split <;> simp
        · exact ⟨rfl, rfl⟩
      · exact ⟨rfl, rfl⟩

/-- At most one reconnect timer is armed, and only while the socket is closed. -/
theorem step_reconnect (s : State) (e : Event)
    (h : s.reconnectTimers = 0 ∨ (s.reconnectTimers = 1 ∧ s.gatewayWs = some .CLOSED)) :
    (step s e).reconnectTimers = 0 ∨
      ((step s e).reconnectTimers = 1 ∧ (step s e).gatewayWs = some .CLOSED) := by
  cases e with
  | request method params =>
    simp only [step, gatewayRequest_socket]
    exact h
  | wsOpen =>
    simp only [step]
    split
    · next hc =>
      rcases h with h | h
      · exact Or.inl h
      · rw [h.2] at hc; cases hc
    · exact h
  | wsMessage parsed =>
    cases parsed with
    | none => exact h
    | some msg =>
      simp only [step, onMessage, handleGatewayMessage_socket]
      exact h
  | wsClose =>
    simp only [step]
    split
    · exact h
    · exact h
    · next r hnot hws =>
      rcases h with h | h
      · right
        simp [onClose, flushPending_eq, h]
      · rw [h.2] at hws
        exact absurd (Option.some.inj hws).symm hnot
  | wsError => exact h
  | requestTimeout id =>
    simp only [step]
    split
    · exact h
    · simp only [onRequestTimeout]
      split <;> simpa using h
  | fallbackTimeout =>
    simp only [step]
    split
    · exact h
    · simp only [onFallback]
      split
      · exact h
      · simp only [sendConnect, gatewayRequest_socket]
        exact h
  | reconnectTimeout =>
    simp only [step]
    split
    · exact h
    · next hpos =>
      rcases h with h | h
      · exact absurd h hpos
      · left
        simp [connectGateway, h.1]

/-- Whenever `connectGateway` is about to run from a reconnect timer, the socket
it replaces has already emitted its `close` event. -/
theorem reconnect_after_close (events : List Event) :
    0 < (run initial events).reconnectTimers →
      (run initial events).gatewayWs = some .CLOSED := by
  have h : ∀ (s : State),
      (s.reconnectTimers = 0 ∨ (s.reconnectTimers = 1 ∧ s.gatewayWs = some .CLOSED)) →
      ((run s events).reconnectTimers = 0 ∨
        ((run s events).reconnectTimers = 1 ∧ (run s events).gatewayWs = some .CLOSED)) := by
    induction events with
    | nil => exact fun s hs => hs
    | cons e rest ih => exact fun s hs => ih (step s e) (step_reconnect s e hs)
  intro hpos
  rcases h initial (Or.inl rfl) with h0 | h1
  · omega
  · exact h1.2

/-! ## The identity store (C12) -/

theorem writeDeviceFile_deviceIdentity (st : IdentityStore) (identity : JsVal) :
    (writeDeviceFile st identity).deviceIdentity = st.deviceIdentity := by
  unfold writeDeviceFile
  split <;> rfl

theorem getOrCreateDeviceIdentity_cached (st : IdentityStore) (uuid now : String)
    (h : st.deviceIdentity.truthy = true) :
    getOrCreateDeviceIdentity st uuid now = (st.deviceIdentity, st) := by
  simp [getOrCreateDeviceIdentity, h]

theorem getOrCreateDeviceIdentity_loaded (st : IdentityStore) (uuid now : String) (v : JsVal)
    (h : st.deviceIdentity.truthy = false) (hf : st.file = .content (some v)) :
    getOrCreateDeviceIdentity st uuid now = (v, { st with deviceIdentity := v }) := by
  simp [getOrCreateDeviceIdentity, h, hf]

theorem getOrCreateDeviceIdentity_generated (st : IdentityStore) (uuid now : String)
    (h : st.deviceIdentity.truthy = false) (hf : ∀ v, st.file ≠ .content (some v)) :
    getOrCreateDeviceIdentity st uuid now =
      (.obj [("id", .str uuid), ("createdAt", .num true now)],
        writeDeviceFile
          { st with
            deviceIdentity := .obj [("id", .str uuid), ("createdAt", .num true now)]
            uuidCalls := st.uuidCalls + 1 }
          (.obj [("id", .str uuid), ("createdAt", .num true now)])) := by
  unfold getOrCreateDeviceIdentity
  rw [if_neg (by simp [h])]
  split
  · next v hv => exact absurd hv (hf v)
  · rfl

/-- C12: whatever the cache and the storage hold (file absent, readable,
unreadable or unparsable; writable or not), a second call of
`getOrCreateDeviceIdentity` returns the value the first call returned, hence the
same `id`, and leaves the store exactly as the first call left it: it calls
`crypto.randomUUID` and `fs.writeFileSync` no further time, and the file is
untouched. -/
theorem getOrCreateDeviceIdentity_twice (st : IdentityStore) (uuid1 now1 uuid2 now2 : String) :
    (getOrCreateDeviceIdentity (getOrCreateDeviceIdentity st uuid1 now1).2 uuid2 now2).1 =
      (getOrCreateDeviceIdentity st uuid1 now1).1 ∧
    ((getOrCreateDeviceIdentity (getOrCreateDeviceIdentity st uuid1 now1).2 uuid2 now2).1.prop "id" =
      (getOrCreateDeviceIdentity st uuid1 now1).1.prop "id") ∧
    (getOrCreateDeviceIdentity (getOrCreateDeviceIdentity st uuid1 now1).2 uuid2 now2).2 =
      (getOrCreateDeviceIdentity st uuid1 now1).2 ∧
    (getOrCreateDeviceIdentity (getOrCreateDeviceIdentity st uuid1 now1).2 uuid2 now2).2.uuidCalls =
      (getOrCreateDeviceIdentity st uuid1 now1).2.uuidCalls ∧
    (getOrCreateDeviceIdentity (getOrCreateDeviceIdentity st uuid1 now1).2 uuid2 now2).2.writeCalls =
      (getOrCreateDeviceIdentity st uuid1 now1).2.writeCalls := by
  have key : getOrCreateDeviceIdentity (getOrCreateDeviceIdentity st uuid1 now1).2 uuid2 now2 =
      getOrCreateDeviceIdentity st uuid1 now1 := by
    by_cases hc : st.deviceIdentity.truthy = true
    · rw [getOrCreateDeviceIdentity_cached st uuid1 now1 hc]
      exact getOrCreateDeviceIdentity_cached st uuid2 now2 hc
    · have hc2 : st.deviceIdentity.truthy = false := by simpa using hc
      by_cases hf : ∃ v, st.file = .content (some v)
      · obtain ⟨v, hv⟩ := hf
        rw [getOrCreateDeviceIdentity_loaded st uuid1 now1 v hc2 hv]
        by_cases hvt : v.truthy = true
        · exact getOrCreateDeviceIdentity_cached _ uuid2 now2 hvt
        · have hvf : v.truthy = false := by simpa using hvt
          exact getOrCreateDeviceIdentity_loaded _ uuid2 now2 v hvf hv
      · have hf2 : ∀ v, st.file ≠ .content (some v) := fun v hv => hf ⟨v, hv⟩
        rw [getOrCreateDeviceIdentity_generated st uuid1 now1 hc2 hf2]
        show getOrCreateDeviceIdentity (writeDeviceFile _ _) uuid2 now2 = _
        rw [getOrCreateDeviceIdentity_cached _ uuid2 now2
          (by rw [writeDeviceFile_deviceIdentity]; rfl), writeDeviceFile_deviceIdentity]
  rw [key]
  exact ⟨rfl, rfl, rfl, rfl, rfl⟩

/-- The first call in a fresh process, for each storage condition: an absent,
unreadable or unparsable file makes the call generate and try to persist an
identity; a readable file is returned as parsed, with no UUID and no write. -/
theorem getOrCreateDeviceIdentity_first_call (uuid now : String) (writable : Bool)
    (v : JsVal) :
    (getOrCreateDeviceIdentity (freshStore .absent writable) uuid now).1.prop "id" = .str uuid ∧
    (getOrCreateDeviceIdentity (freshStore .unreadable writable) uuid now).1.prop "id" =
      .str uuid ∧
    (getOrCreateDeviceIdentity (freshStore (.content none) writable) uuid now).1.prop "id" =
      .str uuid ∧
    (getOrCreateDeviceIdentity (freshStore .absent writable) uuid now).2.uuidCalls = 1 ∧
    (getOrCreateDeviceIdentity (freshStore .absent writable) uuid now).2.writeCalls = 1 ∧
    (getOrCreateDeviceIdentity (freshStore .absent false) uuid now).2.file = .absent ∧
    (getOrCreateDeviceIdentity (freshStore (.content (some v)) writable) uuid now).1 = v ∧
    (getOrCreateDeviceIdentity (freshStore (.content (some v)) writable) uuid now).2.uuidCalls
      = 0 ∧
    (getOrCreateDeviceIdentity (freshStore (.content (some v)) writable) uuid now).2.writeCalls
      = 0 := by
  refine ⟨rfl, rfl, rfl, ?_, ?_, rfl, rfl, rfl, rfl⟩
  · cases writable <;> rfl
  · cases writable <;> rfl

/-! ## When `connected` becomes true (C11) -/

theorem JsVal.eq_of_isStr (v : JsVal) (literal : String) (h : v.isStr literal = true) :
    v = .str literal := by
  cases v <;> simp_all [JsVal.isStr]

theorem settle_connected (s : State) (p : Promise) (o : Outcome) (c : Cause)
    (h : (settle s p o c).connected = true) :
    s.connected = true ∨ (p.caller = .sendConnect ∧ ∃ v, o = .resolved v) := by
  unfold settle at h
  cases hfirst : (!(s.settled.any (fun r => r.promise.handle == p.handle))) <;>
    cases hcaller : p.caller <;> cases o <;> simp_all

theorem gatewayRequest_connected (s : State) (caller : Caller) (method : String)
    (params : JsVal) : (gatewayRequest s caller method params).connected = s.connected := by
  by_cases hopen : s.gatewayWs = some .OPEN
  · rw [gatewayRequest_open s caller method params hopen]
  · rw [gatewayRequest_not_open s caller method params hopen]

/-- The only way for `handleGatewayMessage` to turn `connected` on: a response
envelope with a truthy `ok` whose id is pending for a promise of `sendConnect`. -/
theorem handleGatewayMessage_connected (s : State) (msg : JsVal)
    (h0 : s.connected = false) (h : (handleGatewayMessage s msg).state.connected = true) :
    ∃ id p, msg.prop "type" = .str "res" ∧ msg.prop "id" = .str id ∧
      (msg.prop "ok").truthy = true ∧ s.pendingRequests.lookup id = some p ∧
      p.caller = .sendConnect := by
  unfold handleGatewayMessage at h
  split at h
  · simp [h0] at h
  · split at h
    · have := gatewayRequest_connected
        { s with connectNonce := ((msg.prop "payload").optProp "nonce").orElse .null }
        .sendConnect "connect" connectMsg
      simp only [sendConnect] at h
      rw [this] at h
      simp [h0] at h
    · split at h
      · next hres =>
        split at h
        · next pending id hget hid =>
          rw [hid] at hget
          split at h
          · next hok =>
            rcases settle_connected _ _ _ _ h with hc | hc
            · simp [h0] at hc
            · exact ⟨id, pending, JsVal.eq_of_isStr _ _ hres, hid, hok, hget, hc.1⟩
          · split at h
            · simp [settle_rejected, h0] at h
            · simp [h0] at h
        · simp [h0] at h
      · simp [h0] at h

/-- A single event turns `connected` on only if it is a response envelope with
a truthy `ok` whose id is pending for a promise of `sendConnect`. -/
theorem step_sets_connected (s : State) (e : Event)
    (h0 : s.connected = false) (h : (step s e).connected = true) :
    ∃ msg id p, e = .wsMessage (some msg) ∧ msg.prop "type" = .str "res" ∧
      msg.prop "id" = .str id ∧ (msg.prop "ok").truthy = true ∧
      s.pendingRequests.lookup id = some p ∧ p.caller = .sendConnect := by
  cases e with
  | request method params =>
    simp only [step, gatewayRequest_connected] at h
    simp [h0] at h
  | wsOpen =>
    simp only [step] at h
    split at h <;> simp [onOpen, h0] at h
  | wsMessage parsed =>
    cases parsed with
    | none => simp [step, onMessage, h0] at h
    | some msg =>
      obtain ⟨id, p, hp⟩ := handleGatewayMessage_connected s msg h0 h
      exact ⟨msg, id, p, rfl, hp⟩
  | wsClose =>
    simp only [step] at h
    split at h <;> simp [onClose, flushPending_eq, h0] at h
  | wsError => simp [step, h0] at h
  | requestTimeout id =>
    simp only [step] at h
    split at h
    · simp [h0] at h
    · simp only [onRequestTimeout] at h
      split at h <;> simp [settle_rejected, h0] at h
  | fallbackTimeout =>
    simp only [step] at h
    split at h
    · simp [h0] at h
    · simp only [onFallback] at h
      split at h
      · simp [h0] at h
      · simp only [sendConnect, gatewayRequest_connected] at h
        simp [h0] at h
  | reconnectTimeout =>
    simp only [step] at h
    split at h <;> simp [connectGateway, h0] at h

theorem PendingMap.mem_set (m : PendingMap) (id : String) (p : Promise)
    (x : String × Promise) (h : x ∈ PendingMap.set m id p) : x ∈ m ∨ x = (id, p) := by
  unfold PendingMap.set at h
  split at h
  · obtain ⟨e, he, hx⟩ := List.mem_map.1 h
    by_cases hk : (e.1 == id) = true
    · rw [if_pos hk] at hx
      exact Or.inr hx.symm
    · rw [if_neg hk] at hx
      exact Or.inl (hx ▸ he)
  · rcases List.mem_append.1 h with h | h
    · exact Or.inl h
    · exact Or.inr (List.mem_singleton.1 h)

theorem ConnectFrameSent.mono {s t : State} {id : String} (h : ConnectFrameSent s id)
    (hsent : ∀ f ∈ s.sent, f ∈ t.sent) : ConnectFrameSent t id := by
  obtain ⟨f, hf, hid⟩ := h
  exact ⟨f, hsent f hf, hid⟩

theorem Epoch.of_subset {n0 : Nat} {s t : State} (h : Epoch n0 s)
    (hreq : s.requestId ≤ t.requestId) (hsent : ∀ f ∈ s.sent, f ∈ t.sent)
    (hpend : ∀ x ∈ t.pendingRequests, x ∈ s.pendingRequests) : Epoch n0 t where
  counter := Nat.le_trans h.counter hreq
  pending_new := fun x hx => h.pending_new x (hpend x hx)
  connect_sent := fun x hx hc => (h.connect_sent x (hpend x hx) hc).mono hsent

theorem Epoch.after_gatewayRequest {n0 : Nat} {s : State} (h : Epoch n0 s) (caller : Caller)
    (method : String) (params : JsVal) (hm : caller = .sendConnect → method = "connect") :
    Epoch n0 (gatewayRequest s caller method params) := by
  by_cases hopen : s.gatewayWs = some .OPEN
  · rw [gatewayRequest_open s caller method params hopen]
    have hsent : ∀ f ∈ s.sent, f ∈ s.sent ++ [⟨reqId (s.requestId + 1), method, params⟩] :=
      fun f hf => List.mem_append_left _ hf
    constructor
    · exact Nat.le_succ_of_le h.counter
    · intro x hx
      rcases PendingMap.mem_set _ _ _ x hx with hx | hx
      · exact h.pending_new x hx
      · exact ⟨s.requestId, h.counter, by rw [hx]⟩
    · intro x hx hc
      rcases PendingMap.mem_set _ _ _ x hx with hx | hx
      · exact (h.connect_sent x hx hc).mono hsent
      · subst hx
        exact ⟨⟨reqId (s.requestId + 1), method, params⟩, by simp, rfl, hm hc⟩
  · rw [gatewayRequest_not_open s caller method params hopen]
    exact h.of_subset (Nat.le_refl _) (fun f hf => hf) (fun x hx => hx)

theorem Epoch.after_handleGatewayMessage {n0 : Nat} {s : State} (h : Epoch n0 s) (msg : JsVal) :
    Epoch n0 (handleGatewayMessage s msg).state := by
  unfold BotchBoard.handleGatewayMessage
  split
  · exact h
  · split
    · show Epoch n0 (BotchBoard.gatewayRequest _ _ _ _)
      apply Epoch.after_gatewayRequest _ _ _ _ (fun _ => rfl)
      exact h.of_subset (Nat.le_refl _) (fun f hf => hf) (fun x hx => hx)
    · split
      · split
        · split
          · exact h.of_subset (by simp) (by simp) (by
              simp only [settle_frame]
              exact fun x hx => List.mem_of_mem_filter hx)
          · split
            · exact h.of_subset (by simp) (by simp) (by
                simp only [settle_frame]
                exact fun x hx => List.mem_of_mem_filter hx)
            · exact h.of_subset (Nat.le_refl _) (fun f hf => hf)
                (fun x hx => List.mem_of_mem_filter hx)
        · exact h
      · exact h

theorem Epoch.after_step {n0 : Nat} {s : State} (h : Epoch n0 s) (e : Event) :
    Epoch n0 (step s e) := by
  cases e with
  | request method params =>
    exact h.after_gatewayRequest .api method params (fun hc => by cases hc)
  | wsOpen =>
    simp only [BotchBoard.step]
    split
    · exact h.of_subset (Nat.le_refl _) (fun f hf => hf) (fun x hx => hx)
    · exact h
  | wsMessage parsed =>
    cases parsed with
    | none => exact h
    | some msg => exact h.after_handleGatewayMessage msg
  | wsClose =>
    simp only [BotchBoard.step]
    split
    · exact h
    · exact h
    · simp only [onClose, flushPending_eq]
      exact h.of_subset (Nat.le_refl _) (fun f hf => hf) (fun x hx => by simp at hx)
  | wsError => exact h
  | requestTimeout id =>
    simp only [BotchBoard.step]
    split
    · exact h
    · simp only [onRequestTimeout]
      split
      · exact h.of_subset (by simp) (by simp) (by
          simp only [settle_frame]
          exact fun x hx => List.mem_of_mem_filter hx)
      · exact h.of_subset (Nat.le_refl _) (fun f hf => hf) (fun x hx => hx)
  | fallbackTimeout =>
    simp only [BotchBoard.step]
    split
    · exact h
    · simp only [onFallback]
      split
      · exact h.of_subset (Nat.le_refl _) (fun f hf => hf) (fun x hx => hx)
      · show Epoch n0 (BotchBoard.gatewayRequest _ _ _ _)
        apply Epoch.after_gatewayRequest _ _ _ _ (fun _ => rfl)
        exact h.of_subset (Nat.le_refl _) (fun f hf => hf) (fun x hx => hx)
  | reconnectTimeout =>
    simp only [BotchBoard.step]
    split
    · exact h
    · exact h.of_subset (Nat.le_refl _) (fun f hf => hf) (fun x hx => hx)

theorem step_wsClose_live (s : State) (r : ReadyState) (hws : s.gatewayWs = some r)
    (hr : r ≠ .CLOSED) : step s .wsClose = onClose { s with gatewayWs := some .CLOSED } := by
  cases r <;> simp_all [step]

theorem handleGatewayMessage_falsy_connected (s : State) (msg : JsVal)
    (hty : msg.prop "type" = .str "res") (hok : (msg.prop "ok").truthy = false) :
    (step s (.wsMessage (some msg))).connected = s.connected := by
  have hn : msg.nullish = false := JsVal.not_nullish_of_prop msg "type" _ hty (by simp)
  simp only [step, onMessage]
  unfold handleGatewayMessage
  simp only [hn, hty, JsVal.isStr, hok]
  simp only [Bool.false_eq_true, if_false, decide_False, Bool.false_and, decide_True, if_true]
  split
  · next habs => simp at habs
  · split
    · split <;> simp [settle_rejected]
    · rfl

theorem run_append (s : State) (a b : List Event) : run s (a ++ b) = run (run s a) b := by
  simp [run, List.foldl_append]

/-- From a state of an epoch, `connected` can be true at the end of a run only
if it was true at the beginning or the run contains a successful response to a
"connect" frame that was issued within the epoch and sent before the response
arrived. -/
theorem connected_since (n0 : Nat) (post : List Event) :
    ∀ s, Epoch n0 s → (run s post).connected = true →
      s.connected = true ∨
      ∃ before msg after id, post = before ++ .wsMessage (some msg) :: after ∧
        msg.prop "type" = .str "res" ∧ msg.prop "id" = .str id ∧
        (msg.prop "ok").truthy = true ∧ ConnectFrameSent (run s before) id ∧
        ∃ k, n0 ≤ k ∧ id = reqId (k + 1) := by
  induction post with
  | nil => exact fun s _ h => Or.inl h
  | cons e rest ih =>
    intro s hs h
    rcases ih (step s e) (hs.after_step e) h with h1 | ⟨before, msg, after, id, hpost, hrest⟩
    · by_cases h0 : s.connected = true
      · exact Or.inl h0
      · have h0f : s.connected = false := by simpa using h0
        obtain ⟨msg, id, p, he, hty, hid, hok, hlook, hcaller⟩ :=
          step_sets_connected s e h0f h1
        have hmem := PendingMap.mem_of_lookup _ _ _ hlook
        right
        refine ⟨[], msg, rest, id, by rw [he]; rfl, hty, hid, hok, ?_, ?_⟩
        · exact hs.connect_sent _ hmem hcaller
        · exact hs.pending_new _ hmem
    · right
      exact ⟨e :: before, msg, after, id, by rw [hpost]; rfl, hrest⟩

/-- C11: `connected` is true only after a successful response to a connect
request of the current connection. A single event turns the flag on only if it
is a response (type "res") with a truthy `ok` (for the boolean of the wire
contract: `ok = true`) whose id is pending for the promise of `sendConnect`. In
a run from the initial state, if the flag is true after the events `post` that
follow the start or a handled `close`, then `post` contains such a response,
its id is the id of a frame with method "connect" that was sent before the
response arrived, and that frame was not sent before the start or `close`. The
`open` event, a request timeout, a challenge event and a response with a falsy
`ok` leave the flag as it was. -/
theorem connected_only_after_connect_ok :
    (∀ s e, s.connected = false → (step s e).connected = true →
      ∃ msg id p, e = .wsMessage (some msg) ∧ msg.prop "type" = .str "res" ∧
        msg.prop "id" = .str id ∧ (msg.prop "ok").truthy = true ∧
        s.pendingRequests.lookup id = some p ∧ p.caller = .sendConnect) ∧
    (∀ pre post : List Event,
      (pre = [] ∨ ∃ pre0 r, pre = pre0 ++ [.wsClose] ∧
        (run initial pre0).gatewayWs = some r ∧ r ≠ .CLOSED) →
      (run initial (pre ++ post)).connected = true →
      ∃ before msg after id, post = before ++ .wsMessage (some msg) :: after ∧
        msg.prop "type" = .str "res" ∧ msg.prop "id" = .str id ∧
        (msg.prop "ok").truthy = true ∧
        ConnectFrameSent (run initial (pre ++ before)) id ∧
        id ∉ (run initial pre).sent.map Frame.id) ∧
    (∀ s, (step s .wsOpen).connected = s.connected) ∧
    (∀ s id, (step s (.requestTimeout id)).connected = s.connected) ∧
    (∀ s msg, msg.prop "type" = .str "event" → msg.prop "event" = .str "connect.challenge" →
      (step s (.wsMessage (some msg))).connected = s.connected) ∧
    (∀ s msg, msg.prop "type" = .str "res" → (msg.prop "ok").truthy = false →
      (step s (.wsMessage (some msg))).connected = s.connected) := by
  refine ⟨step_sets_connected, ?_, ?_, ?_, ?_, ?_⟩
  · intro pre post hpre hconn
    have hinv : Inv (run initial pre) := inv_initial.run pre
    have hstart : (run initial pre).connected = false ∧ (run initial pre).pendingRequests = [] := by
      rcases hpre with hpre | ⟨pre0, r, hpre, hws, hr⟩
      · subst hpre
        exact ⟨rfl, rfl⟩
      · subst hpre
        rw [run_append]
        have hstep : run (run initial pre0) [.wsClose] =
            onClose { run initial pre0 with gatewayWs := some .CLOSED } :=
          step_wsClose_live _ r hws hr
        rw [hstep]
        simp [onClose, flushPending_eq]
    have hepoch : Epoch (run initial pre).requestId (run initial pre) :=
      ⟨Nat.le_refl _, by simp [hstart.2], by simp [hstart.2]⟩
    rw [run_append] at hconn
    rcases connected_since _ post _ hepoch hconn with h | ⟨before, msg, after, id, h1, h2, h3, h4, h5, k, hk, hid⟩
    · rw [hstart.1] at h
      cases h
    · refine ⟨before, msg, after, id, h1, h2, h3, h4, by rw [run_append]; exact h5, ?_⟩
      intro hmem
      rw [hinv.sent_ids, hinv.issued_ids] at hmem
      obtain ⟨j, hj, hjid⟩ := List.mem_map.1 hmem
      have := reqId_injective (hjid.trans hid)
      have := List.mem_range.1 hj
      omega
  · intro s
    simp only [step]
    split <;> simp [onOpen]
  · intro s id
    simp only [step]
    split
    · rfl
    · simp only [onRequestTimeout]
      split <;> simp [settle_rejected]
  · intro s msg hty hev
    have hn : msg.nullish = false := JsVal.not_nullish_of_prop msg "type" _ hty (by simp)
    simp only [step, onMessage, handleGatewayMessage, hn, hty, hev, JsVal.isStr]
    simp [sendConnect, gatewayRequest_connected]
  · intro s msg hty hok
    exact handleGatewayMessage_falsy_connected s msg hty hok

/-- Witness of C11: after the handshake (open, challenge, successful response to
"req-1") `connected` is true, and the run contains the successful response to a
"connect" frame sent since the start. -/
theorem connected_only_after_connect_ok_witness :
    (run initial ([] ++ handshake)).connected = true ∧
    ∃ before msg after id, handshake = before ++ .wsMessage (some msg) :: after ∧
      msg.prop "type" = .str "res" ∧ msg.prop "id" = .str id ∧
      (msg.prop "ok").truthy = true ∧
      ConnectFrameSent (run initial ([] ++ before)) id ∧
      id ∉ (run initial []).sent.map Frame.id :=
  ⟨rfl, connected_only_after_connect_ok.2.1 [] handshake (Or.inl rfl) rfl⟩

end BotchBoard
